import Mathlib

/-!
Verification of the `nanobot` EnhancedMem consolidation core
(`src/nanobot/agent/enhancedmem/cluster.py` and
`src/nanobot/agent/enhancedmem/store.py`) against its natural-language
specification.

The Python code is shallowly embedded: pure helpers become Lean
functions; file-system state becomes an explicit `Store` record threaded
through the operations; the LLM provider is an external collaborator and
is modelled as a function from the running call index to either a raised
exception (`Except.error`) or a reply text; fallible file operations
consult an injected failure oracle, mirroring `OSError` at each write.
Python `str` values are Lean `String`s (code-point for code-point),
Python `dict`s are association lists with insert-or-overwrite update,
and Python exceptions are `Except`.
-/

namespace Nanobot

/-! ## Python string / dict primitives -/

/-- Truthiness of an optional string field of a message dict:
`None` and the empty string are falsy, anything else truthy. -/
def truthyS (o : Option String) : Bool :=
  o.getD "" ≠ ""

/-- Python `s[:n]` on a string: the first `n` code points. -/
def pyTake (n : Nat) (s : String) : String :=
  ⟨s.data.take n⟩

/-- Python `xs[-k:]`: the last `k` elements, except that `xs[-0:]` is the
whole list (`-0 == 0` in Python, so the slice starts at the beginning). -/
def pySliceLast {α : Type} (k : Nat) (xs : List α) : List α :=
  if k = 0 then xs else xs.drop (xs.length - k)

/-- Python `needle in hay` on strings: substring containment. -/
def pyInStr (needle hay : String) : Bool :=
  decide (List.IsInfix needle.data hay.data)

/-- Python `s.startswith(pre)`. -/
def pyStartsWith (s pre : String) : Bool :=
  List.isPrefixOf pre.data s.data

/-- Python `s.endswith(suf)`. -/
def pyEndsWith (s suf : String) : Bool :=
  List.isSuffixOf suf.data s.data

/-- Python `s.upper()` for the ASCII strings the code uppercases. -/
def pyUpper (s : String) : String :=
  ⟨s.data.map (fun c =>
    if 'a' ≤ c ∧ c ≤ 'z' then Char.ofNat (c.toNat - 32) else c)⟩

/-- Python `sep.join(xs)`. -/
def pyJoin (sep : String) : List String → String
  | [] => ""
  | [x] => x
  | x :: xs => x ++ sep ++ pyJoin sep xs

/-- Helper for `pyReplace`: replace occurrences of the (non-empty)
pattern left to right; the fuel is the input length. -/
def replaceAux (pat rep : List Char) : Nat → List Char → List Char
  | _, [] => []
  | 0, cs => cs
  | fuel + 1, c :: rest =>
    if List.isPrefixOf pat (c :: rest) then
      rep ++ replaceAux pat rep fuel ((c :: rest).drop pat.length)
    else c :: replaceAux pat rep fuel rest

/-- Python `s.replace(pat, rep)` for a non-empty pattern (the code only
replaces `"Z"`). -/
def pyReplace (s pat rep : String) : String :=
  ⟨replaceAux pat.data rep.data s.data.length s.data⟩

/-- Characters Python treats as line breaks in the inputs we model
(`\n`, `\r`, `\r\n`). -/
def isLineBreak (c : Char) : Bool :=
  c = '\n' ∨ c = '\r'

/-- Helper for `pySplitlines`: split a character list at line breaks,
treating `\r\n` as a single break. -/
def splitlinesAux : List Char → List Char → List String
  | [], acc => [⟨acc.reverse⟩]
  | '\r' :: '\n' :: rest, acc => ⟨acc.reverse⟩ :: splitlinesAux rest []
  | c :: rest, acc =>
    if isLineBreak c then ⟨acc.reverse⟩ :: splitlinesAux rest []
    else splitlinesAux rest (c :: acc)

/-- Python `str.splitlines()` for the common `\n` / `\r` / `\r\n` breaks:
splits at breaks and does not produce a trailing empty line for a string
that ends in a break. -/
def pySplitlines (s : String) : List String :=
  match s.data with
  | [] => []
  | cs =>
    let parts := splitlinesAux cs []
    if parts.getLast? = some "" then parts.dropLast else parts

/-- Helper for `dedupFirst`, carrying the set of names already seen. -/
def dedupFirstAux : List String → List String → List String
  | [], _ => []
  | x :: xs, seen =>
    if x ∈ seen then dedupFirstAux xs seen
    else x :: dedupFirstAux xs (x :: seen)

/-- First-occurrence de-duplication; models iterating a Python `set`
built from a list (iteration order is modelled as first occurrence). -/
def dedupFirst (xs : List String) : List String :=
  dedupFirstAux xs []

/-- Python dict update `d[k] = v`: overwrite the value in place when the
key exists (keeping its position), append a new entry otherwise. -/
def dictSet {α : Type} (d : List (String × α)) (k : String) (v : α) :
    List (String × α) :=
  if d.any (fun kv => kv.1 = k) then
    d.map (fun kv => if kv.1 = k then (k, v) else kv)
  else
    d ++ [(k, v)]

/-- Python `d.get(k, default)` on an association list. -/
def dictGetD {α : Type} (d : List (String × α)) (k : String) (v : α) : α :=
  match d with
  | [] => v
  | kv :: rest => if kv.1 = k then kv.2 else dictGetD rest k v

/-! ## A model of `datetime`

Only the pieces the repository uses are modelled: `fromisoformat` on the
extended ISO-8601 format (date, optional `T`/space separator, optional
time with optional fractional seconds and optional `±HH:MM[:SS]`
offset), `strftime` with the `%Y-%m-%d` and `%y%m%d` patterns, a lenient
`strptime(part, "%Y-%m-%d")`, `isoformat`, and subtraction via
`total_seconds`. -/

structure PyDateTime where
  year : Nat
  month : Nat
  day : Nat
  hour : Nat := 0
  minute : Nat := 0
  second : Nat := 0
  microsecond : Nat := 0
  /-- UTC offset in seconds; `none` models a naive datetime. -/
  tzSeconds : Option Int := none
deriving DecidableEq, Repr

def isLeapYear (y : Nat) : Bool :=
  y % 4 = 0 ∧ (y % 100 ≠ 0 ∨ y % 400 = 0)

def daysInMonth (y m : Nat) : Nat :=
  if m = 2 then (if isLeapYear y then 29 else 28)
  else if m = 4 ∨ m = 6 ∨ m = 9 ∨ m = 11 then 30
  else 31

def isDigitChar (c : Char) : Bool :=
  '0' ≤ c ∧ c ≤ '9'

def digitVal (c : Char) : Nat :=
  c.toNat - '0'.toNat

/-- Read exactly `n` digits; returns the value and the rest. -/
def readDigits : Nat → List Char → Option (Nat × List Char)
  | 0, cs => some (0, cs)
  | n + 1, c :: cs =>
    if isDigitChar c then
      match readDigits n cs with
      | some (v, rest) => some (digitVal c * 10 ^ n + v, rest)
      | none => none
    else none
  | _ + 1, [] => none

/-- Read between 1 and `n` digits greedily; returns value, count, rest. -/
def readUpToDigits : Nat → List Char → Option (Nat × Nat × List Char)
  | 0, _ => none
  | _ + 1, [] => none
  | n + 1, c :: cs =>
    if isDigitChar c then
      match readUpToDigits n cs with
      | some (v, k, rest) => some (digitVal c * 10 ^ k + v, k + 1, rest)
      | none => some (digitVal c, 1, cs)
    else none

/-- Parse the optional `±HH:MM[:SS]` UTC-offset tail. -/
def parseIsoOffset (cs : List Char) : Option (Option Int × List Char) :=
  match cs with
  | [] => some (none, [])
  | sign :: rest =>
    if sign = '+' ∨ sign = '-' then
      match readDigits 2 rest with
      | some (oh, ':' :: rest₁) =>
        match readDigits 2 rest₁ with
        | some (om, rest₂) =>
          let (os, rest₃) :=
            match rest₂ with
            | ':' :: r =>
              match readDigits 2 r with
              | some (v, r') => (v, r')
              | none => (100, rest₂)
            | _ => (0, rest₂)
          if oh ≤ 23 ∧ om ≤ 59 ∧ os ≤ 59 then
            let total : Int := (oh * 3600 + om * 60 + os : Nat)
            some (some (if sign = '-' then -total else total), rest₃)
          else none
        | none => none
      | _ => none
    else none

/-- Parse the `HH[:MM[:SS[.ffffff]]]` time part and the optional offset. -/
def parseIsoTime (cs : List Char) :
    Option (Nat × Nat × Nat × Nat × Option Int) :=
  match readDigits 2 cs with
  | none => none
  | some (h, rest) =>
    let (mi, sec, usec, rest₁) :=
      match rest with
      | ':' :: r =>
        match readDigits 2 r with
        | some (mi, r₁) =>
          match r₁ with
          | ':' :: r₂ =>
            match readDigits 2 r₂ with
            | some (sec, r₃) =>
              match r₃ with
              | '.' :: r₄ =>
                match readUpToDigits 6 r₄ with
                | some (f, k, r₅) => (mi, sec, f * 10 ^ (6 - k), r₅)
                | none => (mi, sec, 0, r₃)
              | _ => (mi, sec, 0, r₃)
            | none => (100, 0, 0, r₂)
          | _ => (mi, 0, 0, r₁)
        | none => (100, 0, 0, r)
      | _ => (0, 0, 0, rest)
    match parseIsoOffset rest₁ with
    | some (tz, []) =>
      if h ≤ 23 ∧ mi ≤ 59 ∧ sec ≤ 59 then some (h, mi, sec, usec, tz)
      else none
    | _ => none

/-- Model of `datetime.fromisoformat` on the extended ISO-8601 format:
`YYYY-MM-DD`, optionally followed by `T` or a space and a time with
optional fractional seconds and optional `±HH:MM[:SS]` offset.  Invalid
calendar components are rejected, as in Python. -/
def pyFromIso (s : String) : Option PyDateTime :=
  match readDigits 4 s.data with
  | some (y, '-' :: r₁) =>
    match readDigits 2 r₁ with
    | some (mo, '-' :: r₂) =>
      match readDigits 2 r₂ with
      | some (d, r₃) =>
        if 1 ≤ y ∧ 1 ≤ mo ∧ mo ≤ 12 ∧ 1 ≤ d ∧ d ≤ daysInMonth y mo then
          match r₃ with
          | [] => some { year := y, month := mo, day := d }
          | sep :: r₄ =>
            if sep = 'T' ∨ sep = ' ' then
              match parseIsoTime r₄ with
              | some (h, mi, sec, usec, tz) =>
                some { year := y, month := mo, day := d, hour := h,
                       minute := mi, second := sec, microsecond := usec,
                       tzSeconds := tz }
              | none => none
            else none
        else none
      | _ => none
    | _ => none
  | _ => none

def padNum (width n : Nat) : String :=
  let digits := toString n
  ⟨List.replicate (width - digits.length) '0'⟩ ++ digits

/-- `dt.strftime("%Y-%m-%d")`. -/
def strftimeYmd (dt : PyDateTime) : String :=
  padNum 4 dt.year ++ "-" ++ padNum 2 dt.month ++ "-" ++ padNum 2 dt.day

/-- `dt.strftime("%y%m%d")`. -/
def strftimeYYMMDD (dt : PyDateTime) : String :=
  padNum 2 (dt.year % 100) ++ padNum 2 dt.month ++ padNum 2 dt.day

/-- `dt.isoformat()`: seconds always printed, microseconds only when
non-zero, offset as `±HH:MM[:SS]` when aware. -/
def pyIsoformat (dt : PyDateTime) : String :=
  let base := strftimeYmd dt ++ "T" ++ padNum 2 dt.hour ++ ":" ++
    padNum 2 dt.minute ++ ":" ++ padNum 2 dt.second ++
    (if dt.microsecond ≠ 0 then "." ++ padNum 6 dt.microsecond else "")
  match dt.tzSeconds with
  | none => base
  | some off =>
    let a := off.natAbs
    base ++ (if off < 0 then "-" else "+") ++ padNum 2 (a / 3600) ++ ":" ++
      padNum 2 (a % 3600 / 60) ++
      (if a % 60 ≠ 0 then ":" ++ padNum 2 (a % 60) else "")

/-- Days since the civil epoch for a (validated) date; standard civil
calendar computation, used only to order datetimes for time gaps. -/
def civilDays (y m d : Nat) : Int :=
  let y' : Int := if m ≤ 2 then (y : Int) - 1 else y
  let era : Int := (if y' ≥ 0 then y' else y' - 399) / 400
  let yoe : Int := y' - era * 400
  let mp : Int := ((m : Int) + 9) % 12
  let doy : Int := (153 * mp + 2) / 5 + (d : Int) - 1
  let doe : Int := yoe * 365 + yoe / 4 - yoe / 100 + doy
  era * 146097 + doe - 719468

/-- Seconds-since-epoch of a datetime, offset applied (microseconds are
dropped; no modelled timestamp uses them for gaps). -/
def pyToSeconds (dt : PyDateTime) : Int :=
  civilDays dt.year dt.month dt.day * 86400 +
    (dt.hour * 3600 + dt.minute * 60 + dt.second : Nat) -
    dt.tzSeconds.getD 0

/-! ## `cluster.py` -/

/-- `cluster_id_from_timestamp` (cluster.py:12): derive the cluster key
from a MemCell timestamp.  `now` is the injected clock used on parse
failure (`datetime.now()`). -/
def cluster_id_from_timestamp (now : PyDateTime) (ts : String) : String :=
  match pyFromIso (pyReplace ts "Z" "+00:00") with
  | some dt => strftimeYmd dt
  | none => strftimeYmd now

/-- The persisted cluster state (`cluster_state.json`): three mappings,
modelled as Python dicts. -/
structure ClusterState where
  eventid_to_cluster : List (String × String)
  cluster_counts : List (String × Nat)
  cluster_last_ts : List (String × String)
deriving DecidableEq, Repr

/-- The default state `load_cluster_state` returns for a missing or
unreadable file (cluster.py:31). -/
def emptyClusterState : ClusterState :=
  { eventid_to_cluster := [], cluster_counts := [], cluster_last_ts := [] }

/-- The pure core of `assign_memcell_to_cluster` (cluster.py:46): the
state transformation between the `load_cluster_state` read and the
`save_cluster_state` write.  Returns the cluster id and the state that
is persisted. -/
def assign_memcell_to_cluster (now : PyDateTime) (eventId timestamp : String)
    (state : ClusterState) : String × ClusterState :=
  let clusterId := cluster_id_from_timestamp now timestamp
  ( clusterId,
    { eventid_to_cluster := dictSet state.eventid_to_cluster eventId clusterId,
      cluster_counts := dictSet state.cluster_counts clusterId
        (dictGetD state.cluster_counts clusterId 0 + 1),
      cluster_last_ts := dictSet state.cluster_last_ts clusterId timestamp } )

/-- `get_cluster_event_ids` (cluster.py:69) evaluated on a loaded state:
the event ids whose mapping resolves to `clusterId`. -/
def get_cluster_event_ids (state : ClusterState) (clusterId : String) :
    List String :=
  (state.eventid_to_cluster.filter (fun p => p.2 = clusterId)).map Prod.fst

/-- A sequence of `assign_memcell_to_cluster` calls against one state
file, starting from a fresh (missing) file: each call loads what the
previous call saved. -/
def runAssigns (now : PyDateTime) (calls : List (String × String)) :
    ClusterState :=
  calls.foldl (fun st c => (assign_memcell_to_cluster now c.1 c.2 st).2)
    emptyClusterState

/-! ## Python whitespace helpers -/

/-- The characters Python `str.strip()` removes. -/
def isPyWs (c : Char) : Bool :=
  c = ' ' ∨ c = '\t' ∨ c = '\n' ∨ c = '\r' ∨ c = '\x0b' ∨ c = '\x0c'

/-- Python `str.strip()`. -/
def pyStrip (s : String) : String :=
  ⟨((s.data.dropWhile isPyWs).reverse.dropWhile isPyWs).reverse⟩

/-- Python `str.rstrip()`. -/
def pyRstrip (s : String) : String :=
  ⟨(s.data.reverse.dropWhile isPyWs).reverse⟩

/-! ## A model of decoded JSON values and `json.loads`

`json.loads` is standard-library behaviour the store relies on; it is
modelled by a recursive-descent parser over the exact JSON grammar
(strings with escapes, numbers kept as their raw literal, arrays,
objects with last-wins duplicate keys, and the three literals), failing
(`Except.error`, the model of a raised `JSONDecodeError`) on anything
else or on trailing garbage. -/

inductive JValue where
  | jnull
  | jbool (b : Bool)
  /-- A JSON number, kept as its raw literal text. -/
  | jnum (raw : String)
  | jstr (s : String)
  | jarr (items : List JValue)
  | jobj (fields : List (String × JValue))

/-- Python `v == "lit"` for a decoded JSON value against a string
literal: only an equal string compares equal. -/
def jEqStr (v : JValue) (lit : String) : Bool :=
  match v with
  | .jstr s => s = lit
  | _ => false

/-- JSON whitespace. -/
def skipJWs (cs : List Char) : List Char :=
  cs.dropWhile (fun c => c = ' ' ∨ c = '\t' ∨ c = '\n' ∨ c = '\r')

def hexVal (c : Char) : Option Nat :=
  if isDigitChar c then some (digitVal c)
  else if 'a' ≤ c ∧ c ≤ 'f' then some (c.toNat - 'a'.toNat + 10)
  else if 'A' ≤ c ∧ c ≤ 'F' then some (c.toNat - 'A'.toNat + 10)
  else none

/-- JSON string body after the opening quote (escapes; `\uXXXX` decoded
to the basic-plane code point). -/
def parseJStrAux : List Char → List Char → Option (String × List Char)
  | [], _ => none
  | '"' :: rest, acc => some (⟨acc.reverse⟩, rest)
  | '\\' :: e :: rest, acc =>
    match e with
    | '"' => parseJStrAux rest ('"' :: acc)
    | '\\' => parseJStrAux rest ('\\' :: acc)
    | '/' => parseJStrAux rest ('/' :: acc)
    | 'b' => parseJStrAux rest ('\x08' :: acc)
    | 'f' => parseJStrAux rest ('\x0c' :: acc)
    | 'n' => parseJStrAux rest ('\n' :: acc)
    | 'r' => parseJStrAux rest ('\r' :: acc)
    | 't' => parseJStrAux rest ('\t' :: acc)
    | 'u' =>
      match rest with
      | h₁ :: h₂ :: h₃ :: h₄ :: rest' =>
        match hexVal h₁, hexVal h₂, hexVal h₃, hexVal h₄ with
        | some a, some b, some c, some d =>
          parseJStrAux rest' (Char.ofNat (a * 4096 + b * 256 + c * 16 + d) :: acc)
        | _, _, _, _ => none
      | _ => none
    | _ => none
  | '\\' :: [], _ => none
  | c :: rest, acc =>
    if c.toNat < 32 then none else parseJStrAux rest (c :: acc)

/-- Longest run of digits at the head. -/
def takeDigitRun (cs : List Char) : List Char × List Char :=
  (cs.takeWhile isDigitChar, cs.dropWhile isDigitChar)

/-- A JSON number literal (sign, integer part without leading zeros,
optional fraction, optional exponent), returned as its raw text. -/
def parseJNum (cs : List Char) : Option (String × List Char) :=
  let (sign, cs₁) :=
    match cs with
    | '-' :: r => (['-'], r)
    | _ => (([] : List Char), cs)
  match cs₁ with
  | [] => none
  | c :: _ =>
    if ¬ isDigitChar c then none
    else
      let (intPart, cs₂) := takeDigitRun cs₁
      if intPart.length > 1 ∧ intPart.headD '0' = '0' then none
      else
        let (fracPart, cs₃) :=
          match cs₂ with
          | '.' :: r =>
            let (ds, r') := takeDigitRun r
            if ds = [] then ([], cs₂) else ('.' :: ds, r')
          | _ => ([], cs₂)
        if fracPart = [] ∧ cs₂ ≠ cs₃ then none
        else
          let (expPart, cs₄) :=
            match cs₃ with
            | e :: r =>
              if e = 'e' ∨ e = 'E' then
                let (sgn, r₁) :=
                  match r with
                  | s :: r' => if s = '+' ∨ s = '-' then ([s], r') else ([], r)
                  | [] => ([], r)
                let (ds, r₂) := takeDigitRun r₁
                if ds = [] then ([], cs₃) else (e :: (sgn ++ ds), r₂)
              else ([], cs₃)
            | [] => ([], cs₃)
          some (⟨sign ++ intPart ++ fracPart ++ expPart⟩, cs₄)

mutual

/-- JSON value parser; the fuel strictly exceeds twice the input length,
which bounds every recursion chain. -/
def parseJVal : Nat → List Char → Option (JValue × List Char)
  | 0, _ => none
  | fuel + 1, cs =>
    match skipJWs cs with
    | [] => none
    | '{' :: rest =>
      match skipJWs rest with
      | '}' :: r => some (.jobj [], r)
      | r => parseJFields fuel r []
    | '[' :: rest =>
      match skipJWs rest with
      | ']' :: r => some (.jarr [], r)
      | r => parseJItems fuel r []
    | '"' :: rest =>
      match parseJStrAux rest [] with
      | some (s, r) => some (.jstr s, r)
      | none => none
    | 't' :: 'r' :: 'u' :: 'e' :: r => some (.jbool true, r)
    | 'f' :: 'a' :: 'l' :: 's' :: 'e' :: r => some (.jbool false, r)
    | 'n' :: 'u' :: 'l' :: 'l' :: r => some (.jnull, r)
    | c :: rest =>
      if c = '-' ∨ isDigitChar c then
        match parseJNum (c :: rest) with
        | some (s, r) => some (.jnum s, r)
        | none => none
      else none

/-- Comma-separated array items up to `]`. -/
def parseJItems : Nat → List Char → List JValue → Option (JValue × List Char)
  | 0, _, _ => none
  | fuel + 1, cs, acc =>
    match parseJVal fuel cs with
    | none => none
    | some (v, rest) =>
      match skipJWs rest with
      | ',' :: r => parseJItems fuel r (v :: acc)
      | ']' :: r => some (.jarr (acc.reverse ++ [v]), r)
      | _ => none

/-- Comma-separated object members up to `}`; duplicate keys overwrite,
as in a Python dict literal built by `json.loads`. -/
def parseJFields : Nat → List Char → List (String × JValue) →
    Option (JValue × List Char)
  | 0, _, _ => none
  | fuel + 1, cs, acc =>
    match skipJWs cs with
    | '"' :: rest =>
      match parseJStrAux rest [] with
      | none => none
      | some (k, r₁) =>
        match skipJWs r₁ with
        | ':' :: r₂ =>
          match parseJVal fuel r₂ with
          | none => none
          | some (v, r₃) =>
            match skipJWs r₃ with
            | ',' :: r₄ => parseJFields fuel r₄ (dictSet acc k v)
            | '}' :: r₄ => some (.jobj (dictSet acc k v), r₄)
            | _ => none
        | _ => none
    | _ => none

end

/-- `json.loads`: parse one JSON value and require only whitespace to
follow; raises (`Except.error`) otherwise. -/
def pyJsonLoads (s : String) : Except Unit JValue :=
  match parseJVal (2 * s.data.length + 2) s.data with
  | some (v, rest) => if skipJWs rest = [] then .ok v else .error ()
  | none => .error ()

/-! ## Python views of decoded JSON values -/

/-- Python truthiness of a decoded JSON value. -/
def jTruthy : JValue → Bool
  | .jnull => false
  | .jbool b => b
  | .jnum raw =>
    -- a number is falsy exactly when its mantissa is zero
    ((raw.data.takeWhile (fun c => c ≠ 'e' ∧ c ≠ 'E')).filter isDigitChar).any
      (fun c => c ≠ '0')
  | .jstr s => s ≠ ""
  | .jarr xs => ¬ xs.isEmpty
  | .jobj kvs => ¬ kvs.isEmpty

/-- Python `x or y`. -/
def pyOrJ (x y : JValue) : JValue :=
  if jTruthy x then x else y

/-- `str()` of a decoded JSON number: integers print as their literal
(`-0` normalising to `0`); float literals are kept as written, a
printable approximation of Python float repr that no theorem relies
on. -/
def pyNumStr (raw : String) : String :=
  if raw.data.any (fun c => c = '.' ∨ c = 'e' ∨ c = 'E') then raw
  else if raw = "-0" then "0" else raw

mutual

/-- `repr()` of a decoded JSON value (string escaping approximated;
only ever applied to scalars by the modelled code paths). -/
def pyReprJ : JValue → String
  | .jnull => "None"
  | .jbool true => "True"
  | .jbool false => "False"
  | .jnum raw => pyNumStr raw
  | .jstr s => "'" ++ s ++ "'"
  | .jarr xs => "[" ++ pyReprList xs ++ "]"
  | .jobj kvs => "\x7b" ++ pyReprFields kvs ++ "\x7d"

def pyReprList : List JValue → String
  | [] => ""
  | [x] => pyReprJ x
  | x :: xs => pyReprJ x ++ ", " ++ pyReprList xs

def pyReprFields : List (String × JValue) → String
  | [] => ""
  | [kv] => "'" ++ kv.1 ++ "': " ++ pyReprJ kv.2
  | kv :: kvs => "'" ++ kv.1 ++ "': " ++ pyReprJ kv.2 ++ ", " ++ pyReprFields kvs

end

/-- Python `str()` of a decoded JSON value. -/
def pyStr : JValue → String
  | .jstr s => s
  | v => pyReprJ v

/-- Python `for x in v`: lists iterate elements, strings iterate
characters, dicts iterate keys; other values raise `TypeError`. -/
def pyIter : JValue → Except Unit (List JValue)
  | .jarr xs => .ok xs
  | .jstr s => .ok (s.data.map (fun c => .jstr ⟨[c]⟩))
  | .jobj kvs => .ok (kvs.map (fun kv => JValue.jstr kv.1))
  | _ => .error ()

/-- Python `v[:n]`: slices strings and lists, raises `TypeError`
otherwise. -/
def pySliceJ (n : Nat) : JValue → Except Unit JValue
  | .jstr s => .ok (.jstr (pyTake n s))
  | .jarr xs => .ok (.jarr (xs.take n))
  | _ => .error ()

/-- `data.get(k, default)` on a decoded JSON object. -/
def jGetD (kvs : List (String × JValue)) (k : String) (v : JValue) : JValue :=
  dictGetD kvs k v

/-! ## The regular-expression searches the store performs -/

/-- Helper for `findFlatBraces`: chars after a `{` up to a flat `}`. -/
def scanFlat : List Char → Option (List Char)
  | [] => none
  | '}' :: _ => some []
  | '{' :: _ => none
  | c :: rest => (scanFlat rest).map (c :: ·)

/-- `re.search(r"\x7b[^\x7b\x7d]*\x7d", text, re.DOTALL)` (store.py:241):
the first substring consisting of `\x7b`, then any characters that are
not braces, then `\x7d`. -/
def findFlatBraces : List Char → Option String
  | [] => none
  | '{' :: rest =>
    match scanFlat rest with
    | some mid => some ("\x7b" ++ (⟨mid⟩ : String) ++ "\x7d")
    | none => findFlatBraces rest
  | _ :: rest => findFlatBraces rest

/-- Index of the last occurrence of `c`. -/
def lastIndexOf (c : Char) (cs : List Char) : Option Nat :=
  cs.enum.foldl (fun acc p => if p.2 = c then some p.1 else acc) none

/-- `re.search` with the greedy pattern `open [\s\S]* close`: the match,
when any, runs from the first `open` to the last `close` of the whole
text (store.py:369, 413, 445). -/
def greedyDelim (openC closeC : Char) (s : String) : Option String :=
  let cs := s.data
  match cs.findIdx? (fun c => c = openC) with
  | none => none
  | some i =>
    if (cs.drop (i + 1)).any (fun c => c = closeC) then
      match lastIndexOf closeC cs with
      | some j => some ⟨(cs.take (j + 1)).drop i⟩
      | none => none
    else none

/-- Scanner state loop of `_extract_json_object` (store.py:44): depth
counting, quote tracking (both quote characters) and escape handling,
returning the text from the first `\x7b` through its matching `\x7d`. -/
def extractJsonObjectAux :
    List Char → Nat → Bool → Bool → Char → List Char → Option String
  | [], _, _, _, _, _ => none
  | c :: rest, depth, inString, escape, qc, acc =>
    if escape then
      extractJsonObjectAux rest depth inString false qc (c :: acc)
    else if inString then
      if c = '\\' then
        extractJsonObjectAux rest depth true true qc (c :: acc)
      else if c = qc then
        extractJsonObjectAux rest depth false false qc (c :: acc)
      else
        extractJsonObjectAux rest depth true false qc (c :: acc)
    else if c = '"' ∨ c = '\'' then
      extractJsonObjectAux rest depth true false c (c :: acc)
    else if c = '{' then
      extractJsonObjectAux rest (depth + 1) false false qc (c :: acc)
    else if c = '}' then
      if depth = 1 then some ⟨(c :: acc).reverse⟩
      else extractJsonObjectAux rest (depth - 1) false false qc (c :: acc)
    else
      extractJsonObjectAux rest depth false false qc (c :: acc)

/-- `_extract_json_object` (store.py:44): extract the outermost
`\x7b`…`\x7d` span, handling nested braces and strings. -/
def extractJsonObject (text : String) : Option String :=
  match text.data.dropWhile (fun c => c ≠ '{') with
  | [] => none
  | cs => extractJsonObjectAux cs 0 false false ' ' []

/-! ## `store.py`: constants, messages, boundary detection -/

/-- Force-split limits (store.py:32). -/
def HARD_TOKEN_LIMIT : Nat := 8192

def HARD_MESSAGE_LIMIT : Nat := 50

/-- Approximate tokens from chars (store.py:36). -/
def CHARS_PER_TOKEN : Nat := 3

/-- `_estimate_tokens` (store.py:39): rough token estimate from the
character count. -/
def estimate_tokens (text : String) : Nat :=
  max 1 (text.data.length / CHARS_PER_TOKEN)

/-- A session message dict.  `none` models a missing (or `None`) field;
the code only ever reads these fields through `.get` with a default or
a truthiness test, which treat missing and empty alike. -/
structure Message where
  role : Option String := none
  content : Option String := none
  timestamp : Option String := none
  tools_used : List String := []
deriving DecidableEq, Repr

/-- `_estimate_total_tokens` (store.py:189). -/
def estimate_total_tokens (messages : List Message) : Nat :=
  messages.foldl
    (fun total m =>
      total + estimate_tokens ((m.content.getD "") ++ m.timestamp.getD ""))
    0

/-- `_format_messages_for_prompt` (store.py:154). -/
def format_messages_for_prompt (messages : List Message) : String :=
  pyJoin "\n" (messages.filterMap (fun m =>
    if truthyS m.content then
      let role := pyUpper (m.role.getD "unknown")
      let ts :=
        if truthyS m.timestamp then pyTake 16 (m.timestamp.getD "") else ""
      let tools :=
        if ¬ m.tools_used.isEmpty then
          " [tools: " ++ pyJoin ", " m.tools_used ++ "]"
        else ""
      some ("[" ++ ts ++ "] " ++ role ++ tools ++ ": " ++ m.content.getD "")
    else none))

/-- `_time_gap_info` (store.py:167): bucketed description of the gap
between the last history message and the first new one.  Subtracting a
naive from an aware datetime raises `TypeError` in Python, landing in
the parse-failure branch. -/
def time_gap_info (history newMsgs : List Message) : String :=
  if history.isEmpty ∨ newMsgs.isEmpty then "无时间间隔信息"
  else
    let lastTs := ((history.getLast?).map (fun m => m.timestamp.getD "")).getD ""
    let firstTs := ((newMsgs.head?).map (fun m => m.timestamp.getD "")).getD ""
    if lastTs = "" ∨ firstTs = "" then "无时间戳"
    else
      match pyFromIso (pyReplace lastTs "Z" "+00:00"),
            pyFromIso (pyReplace firstTs "Z" "+00:00") with
      | some lastDt, some firstDt =>
        if lastDt.tzSeconds.isSome ≠ firstDt.tzSeconds.isSome then "时间解析失败"
        else
          let diff := pyToSeconds firstDt - pyToSeconds lastDt
          if diff < 60 then "间隔 " ++ toString diff ++ " 秒（即时回复）"
          else if diff < 3600 then "间隔 " ++ toString (diff / 60) ++ " 分钟"
          else if diff < 86400 then "间隔 " ++ toString (diff / 3600) ++ " 小时"
          else "间隔 " ++ toString (diff / 86400) ++ " 天（可能为新对话）"
      | _, _ => "时间解析失败"

/-- The fixed summary of the deterministic force-split (store.py:213). -/
def FORCED_SPLIT_SUMMARY : String := "达到消息/Token 上限，强制切分"

/-- One attempt of the boundary-detection retry loop
(store.py:229–251): the provider either raises (`Except.error`) or
returns a reply text (`response.content or ""` already coalesced); the
attempt produces a decision only when the reply contains a flat
`\x7b`…`\x7d` span that `json.loads` accepts.  Every other outcome —
provider exception, no regex match, a JSON parse error — yields `none`
and the loop moves to the next attempt. -/
def boundaryAttemptResult (r : Except Unit String) :
    Option (Bool × Bool × String) :=
  match r with
  | .error _ => none
  | .ok content =>
    let text := pyStrip content
    match findFlatBraces text.data with
    | none => none
    | some objStr =>
      match pyJsonLoads objStr with
      | .ok (.jobj kvs) =>
        let shouldEnd := jTruthy (jGetD kvs "should_end" (.jbool false))
        let shouldWait := jTruthy (jGetD kvs "should_wait" (.jbool true))
        let topicSummary :=
          pyStr (pyOrJ (jGetD kvs "topic_summary" (.jstr "")) (.jstr ""))
        some (shouldEnd, if shouldEnd then false else shouldWait, topicSummary)
      | _ => none

/-- The `for attempt in range(3)` retry loop, threading the running
provider-call counter (each attempt issues one provider call). -/
def boundaryLoop (provider : Nat → Except Unit String) :
    Nat → Nat → (Bool × Bool × String) × Nat
  | 0, calls => ((false, true, ""), calls)
  | n + 1, calls =>
    match boundaryAttemptResult (provider calls) with
    | some r => (r, calls + 1)
    | none => boundaryLoop provider n (calls + 1)

/-- `_detect_boundary` (store.py:197): returns the decision triple
`(should_end, should_wait, topic_summary)` together with the updated
provider-call counter.  The provider is an external collaborator,
modelled as a function of the running call index; the rendered prompt
(`format_messages_for_prompt`, `time_gap_info` and the Chinese template)
feeds only that opaque call. -/
def detect_boundary (provider : Nat → Except Unit String)
    (historyMsgs newMsgs : List Message) (calls : Nat) :
    (Bool × Bool × String) × Nat :=
  if newMsgs.isEmpty then ((false, true, ""), calls)
  else
    let totalTokens := estimate_total_tokens (historyMsgs ++ newMsgs)
    let totalMessages := historyMsgs.length + newMsgs.length
    if (HARD_TOKEN_LIMIT ≤ totalTokens ∨ HARD_MESSAGE_LIMIT ≤ totalMessages)
        ∧ 2 ≤ historyMsgs.length then
      ((true, false, FORCED_SPLIT_SUMMARY), calls)
    else if historyMsgs.isEmpty then ((false, false, ""), calls)
    else boundaryLoop provider 3 calls

/-! ## MemCell creation and digest compaction -/

/-- One normalized entry of a MemCell's `original_data`. -/
structure OrigMsg where
  role : String
  content : String
  timestamp : String
  speaker_name : String
deriving DecidableEq, Repr

/-- An immutable MemCell record (store.py:263). -/
structure MemCell where
  event_id : String
  original_data : List OrigMsg
  timestamp : String
  summary : String
  participants : List String
  type : String
deriving DecidableEq, Repr

/-- `_create_memcell` (store.py:255).  `now` is the injected clock
(`datetime.now()`), `newUuid` the freshly drawn `uuid.uuid4()` string. -/
def create_memcell (now : PyDateTime) (newUuid : String)
    (messages : List Message) (summary : String) : MemCell :=
  let lastTs :=
    match messages.getLast? with
    | some m => m.timestamp.getD (pyIsoformat now)
    | none => pyIsoformat now
  let dt :=
    match pyFromIso (pyReplace lastTs "Z" "+00:00") with
    | some d => d
    | none => now
  { event_id := newUuid,
    original_data := messages.filterMap (fun m =>
      if truthyS m.content then
        some { role := m.role.getD "user", content := m.content.getD "",
               timestamp := m.timestamp.getD "",
               speaker_name := pyUpper (m.role.getD "user") }
      else none),
    timestamp := pyIsoformat dt,
    summary := if summary = "" then "对话片段" else summary,
    participants := dedupFirst (messages.map (fun m => m.role.getD "user")),
    type := "conversation" }

/-- The header/facts split of `_compact_memory_text` (store.py:287):
bullet lines and everything after the first bullet line are facts,
leading non-bullet lines are the header. -/
def splitHeaderFacts (lines : List String) : List String × List String :=
  lines.foldl
    (fun hf line =>
      if pyStartsWith (pyStrip line) "- " then (hf.1, hf.2 ++ [line])
      else if hf.2.isEmpty then (hf.1 ++ [line], hf.2)
      else (hf.1, hf.2 ++ [line]))
    ([], [])

/-- `_compact_memory_text` (store.py:280): truncate the digest to stay
under `maxChars` (`self._memory_md_max_chars`), keeping the most recent
facts. -/
def compact_memory_text (maxChars : Nat) (content : String) : String :=
  if content.data.length ≤ maxChars then content
  else
    let lines := pySplitlines (pyStrip content)
    let hf := splitHeaderFacts lines
    let keep := maxChars / 80
    let keptFacts := if keep < hf.2.length then pySliceLast keep hf.2 else hf.2
    let result := pyJoin "\n" (hf.1 ++ [""] ++ keptFacts) ++ "\n"
    pyTake maxChars result

/-- The lenient `datetime.strptime(part, "%Y-%m-%d")` used by
`append_history` (store.py:110): each directive greedily matches one to
four (`%Y`) or one to two (`%m`, `%d`) digits and the whole string must
be consumed. -/
def pyStrptimeYmd (s : String) : Option PyDateTime :=
  match readUpToDigits 4 s.data with
  | some (y, _, '-' :: r₁) =>
    match readUpToDigits 2 r₁ with
    | some (mo, _, '-' :: r₂) =>
      match readUpToDigits 2 r₂ with
      | some (d, _, []) =>
        if 1 ≤ y ∧ y ≤ 9999 ∧ 1 ≤ mo ∧ mo ≤ 12 ∧ 1 ≤ d ∧ d ≤ daysInMonth y mo
        then some { year := y, month := mo, day := d }
        else none
      | _ => none
    | _ => none
  | _ => none

/-- Python `s[a:b]` for `0 ≤ a ≤ b`. -/
def pySliceRange (a b : Nat) (s : String) : String :=
  ⟨(s.data.take b).drop a⟩

/-! ## The workspace state and effect model

`Store` holds everything `EnhancedMemStore` persists under the
workspace, plus the session collaborator and the running counters of
provider calls, uuid draws and file operations.  `Env` injects the
external world: the provider (a function of the running call index that
raises or returns the coalesced reply text), the `json_repair` library,
the clock, the uuid generator and a file-failure oracle (`fsFail n`
true means the `n`-th file operation raises `OSError`). -/

/-- The session collaborator: ordered messages and the consolidation
cursor. -/
structure SessionState where
  messages : List Message
  last_consolidated : Nat := 0
deriving DecidableEq, Repr

/-- One record of `episodes.jsonl`; field values are whatever the
decoded JSON reply supplied. -/
structure EpisodeRec where
  event_id : String
  title : JValue
  content : JValue
  summary : JValue
  timestamp : String

structure Store where
  session : SessionState
  /-- `MEMORY.md`; `none` models a missing file. -/
  memoryMd : Option String := none
  /-- `memcells.jsonl` as the records appended, in order. -/
  memcells : List MemCell := []
  episodes : List EpisodeRec := []
  foresights : List JValue := []
  /-- History entries as (YYMMDD file key, entry text), in append order. -/
  historyEntries : List (String × String) := []
  /-- `cluster_state.json`; `none` models a missing file. -/
  clusterFile : Option ClusterState := none
  /-- `USER.md` at the workspace root; `none` models a missing file. -/
  userMd : Option String := none
  providerCalls : Nat := 0
  uuidCount : Nat := 0
  fsOps : Nat := 0

structure Env where
  provider : Nat → Except Unit String
  jsonRepairFn : String → Except Unit JValue
  now : PyDateTime
  uuid : Nat → String
  fsFail : Nat → Bool
  /-- `getattr(config, "memory_md_max_chars", None) or 6000`. -/
  memoryMdMaxChars : Nat := 6000

/-- One provider chat call: counts the call, then either raises or
returns the reply text. -/
def chatCall (env : Env) (st : Store) : Except Store (String × Store) :=
  let st' := { st with providerCalls := st.providerCalls + 1 }
  match env.provider st.providerCalls with
  | .error _ => .error st'
  | .ok s => .ok (s, st')

/-- One fallible file write: raises `OSError` (leaving the store's files
untouched) when the oracle says so. -/
def fsWrite (env : Env) (st : Store) (act : Store → Store) :
    Except Store Store :=
  let st' := { st with fsOps := st.fsOps + 1 }
  if env.fsFail st.fsOps then .error st' else .ok (act st')

/-- One fallible file read returning `v` on success. -/
def fsRead (env : Env) (st : Store) (v : String) :
    Except Store (String × Store) :=
  let st' := { st with fsOps := st.fsOps + 1 }
  if env.fsFail st.fsOps then .error st' else .ok (v, st')

/-- A Python `try: … except Exception: …` that keeps whatever state the
body had produced when it raised. -/
def pyCatch (r : Except Store Store) : Store :=
  match r with
  | .ok st => st
  | .error st => st

/-! ## `EnhancedMemStore` file accessors -/

/-- `read_long_term` (store.py:96): the digest text, `""` when the file
is missing. -/
def read_long_term (env : Env) (st : Store) : Except Store (String × Store) :=
  match st.memoryMd with
  | some content => fsRead env st content
  | none => .ok ("", st)

/-- `write_long_term` (store.py:101). -/
def write_long_term (env : Env) (content : String) (st : Store) :
    Except Store Store :=
  fsWrite env st (fun s => { s with memoryMd := some content })

/-- `append_history` (store.py:104): the target file's date is read from
a leading `[YYYY-MM-DD` tag via the lenient `strptime` — note the slice
`entry.strip()[1:10]` keeps only nine characters, so a two-digit day
loses its last digit — falling back to today on parse failure. -/
def append_history (env : Env) (entry : String) (st : Store) :
    Except Store Store :=
  let dt :=
    if pyStartsWith (pyStrip entry) "[" then
      match pyStrptimeYmd (pySliceRange 1 10 (pyStrip entry)) with
      | some d => d
      | none => env.now
    else env.now
  let key := strftimeYYMMDD dt
  fsWrite env st
    (fun s => { s with historyEntries := s.historyEntries ++ [(key, pyRstrip entry)] })

/-- `_append_memcell` (store.py:299). -/
def append_memcell (env : Env) (mc : MemCell) (st : Store) :
    Except Store Store :=
  fsWrite env st (fun s => { s with memcells := s.memcells ++ [mc] })

/-- `load_cluster_state` (cluster.py:21) against the store: a missing
file, or a failing read (`OSError`/`JSONDecodeError`, swallowed), yields
the empty defaults; never raises. -/
def load_cluster_state_io (env : Env) (st : Store) : ClusterState × Store :=
  match st.clusterFile with
  | none => (emptyClusterState, st)
  | some cs =>
    let st' := { st with fsOps := st.fsOps + 1 }
    if env.fsFail st.fsOps then (emptyClusterState, st') else (cs, st')

/-- `save_cluster_state` (cluster.py:38): whole-file rewrite, fallible. -/
def save_cluster_state_io (env : Env) (cs : ClusterState) (st : Store) :
    Except Store Store :=
  fsWrite env st (fun s => { s with clusterFile := some cs })

/-- `assign_memcell_to_cluster` (cluster.py:46) with its I/O: load,
apply the pure state transformation, save the entire state. -/
def assign_memcell_to_cluster_io (env : Env) (eventId timestamp : String)
    (st : Store) : Except Store (String × Store) :=
  let ls := load_cluster_state_io env st
  let r := assign_memcell_to_cluster env.now eventId timestamp ls.1
  match save_cluster_state_io env r.2 ls.2 with
  | .error s => .error s
  | .ok st₂ => .ok (r.1, st₂)

/-! ## The four extractors -/

/-- `_format_conversation_for_extractors` (store.py:304). -/
def format_conversation_for_extractors (origData : List OrigMsg) : String :=
  pyJoin "\n" (origData.filterMap (fun m =>
    if m.content ≠ "" then
      some ("[" ++ pyTake 19 m.timestamp ++ "] " ++ m.speaker_name ++ ": " ++
        m.content)
    else none))

/-- `_extract_episode` (store.py:315): one chat call, the brace-scanner
extraction, `json.loads` with a `json_repair` fallback, then one append
to `episodes.jsonl`; any exception is caught and yields no artifact. -/
def extract_episode (env : Env) (memcell : MemCell) (st : Store) : Store :=
  pyCatch
    (match chatCall env st with
     | .error s => .error s
     | .ok (text, st₁) =>
       match extractJsonObject (pyStrip text) with
       | none => .ok st₁
       | some objStr =>
         match (match pyJsonLoads objStr with
                | .ok d => some d
                | .error _ =>
                  match env.jsonRepairFn objStr with
                  | .ok d => some d
                  | .error _ => none) with
         | none => .error st₁
         | some (.jobj kvs) =>
           -- data.get("summary", data.get("content", "")[:200]) evaluates
           -- the default eagerly; a non-sliceable content value raises
           match pySliceJ 200 (jGetD kvs "content" (.jstr "")) with
           | .error _ => .error st₁
           | .ok summaryDefault =>
             let episode : EpisodeRec :=
               { event_id := memcell.event_id,
                 title := jGetD kvs "title" (.jstr ""),
                 content := jGetD kvs "content" (.jstr ""),
                 summary := jGetD kvs "summary" summaryDefault,
                 timestamp := memcell.timestamp }
             fsWrite env st₁ (fun s => { s with episodes := s.episodes ++ [episode] })
         | some _ => .error st₁)

/-- The `for fact in facts` append loop of `_extract_eventlog`
(store.py:389), over the already-stripped fact lines. -/
def appendFactLines (env : Env) (evtTime : String) :
    List String → Store → Except Store Store
  | [], st => .ok st
  | f :: fs, st =>
    match append_history env ("[" ++ evtTime ++ "] " ++ f) st with
    | .error s => .error s
    | .ok st' => appendFactLines env evtTime fs st'

/-- The stripped string facts a decoded iterable yields under
`isinstance(fact, str) and fact.strip()` (store.py:390). -/
def stringFacts (items : List JValue) : List String :=
  items.filterMap (fun v =>
    match v with
    | .jstr f => if pyStrip f ≠ "" then some (pyStrip f) else none
    | _ => none)

/-- The list-branch collection of `_extract_eventlog` (store.py:376):
bare strings, or the first truthy of a dict's `atomic_fact`/`fact`/
`content` when it is a non-blank string. -/
def collectListFacts (xs : List JValue) : List JValue :=
  xs.filterMap (fun x =>
    match x with
    | .jstr s => if pyStrip s ≠ "" then some (JValue.jstr s) else none
    | .jobj kvs =>
      let f := pyOrJ (jGetD kvs "atomic_fact" .jnull)
        (pyOrJ (jGetD kvs "fact" .jnull) (jGetD kvs "content" .jnull))
      match f with
      | .jstr s => if pyStrip s ≠ "" then some (JValue.jstr s) else none
      | _ => none
    | _ => none)

/-- `_extract_eventlog` (store.py:354): one chat call, the greedy brace
regex, `json.loads`, then one `append_history` per atomic fact; any
exception is caught (facts already appended stay). -/
def extract_eventlog (env : Env) (memcell : MemCell) (st : Store) : Store :=
  let ts := pyTake 19 memcell.timestamp
  pyCatch
    (match chatCall env st with
     | .error s => .error s
     | .ok (text, st₁) =>
       match greedyDelim '{' '}' (pyStrip text) with
       | none => .ok st₁
       | some s =>
         match pyJsonLoads s with
         | .error _ => .error st₁
         | .ok (.jobj kvs) =>
           match jGetD kvs "event_log" (.jobj kvs) with
           | .jobj elkvs =>
             -- (el.get("time") or ts)[:16] may raise on a non-sliceable
             match pySliceJ 16 (pyOrJ (jGetD elkvs "time" .jnull) (.jstr ts)) with
             | .error _ => .error st₁
             | .ok evtTimeV =>
               -- for fact in facts: a non-iterable atomic_fact raises
               match pyIter (jGetD elkvs "atomic_fact" (.jarr [])) with
               | .error _ => .error st₁
               | .ok items =>
                 appendFactLines env (pyStr evtTimeV) (stringFacts items) st₁
           | .jarr xs =>
             appendFactLines env (pyTake 16 ts) (stringFacts (collectListFacts xs)) st₁
           | _ => .ok st₁
         | .ok _ => .error st₁)

/-- The `for item in items` append loop of `_extract_foresight`
(store.py:416): each dict item is tagged with the MemCell's event id and
appended to `foresights.jsonl`. -/
def appendForesights (env : Env) (eventId : String) :
    List JValue → Store → Except Store Store
  | [], st => .ok st
  | x :: xs, st =>
    match x with
    | .jobj kvs =>
      let item := JValue.jobj (dictSet kvs "event_id" (.jstr eventId))
      (match fsWrite env st (fun s => { s with foresights := s.foresights ++ [item] }) with
       | .error s => .error s
       | .ok st' => appendForesights env eventId xs st')
    | _ => appendForesights env eventId xs st

/-- `_extract_foresight` (store.py:395): one chat call, the greedy
bracket regex, `json.loads`, one append per dict item; exceptions are
caught. -/
def extract_foresight (env : Env) (memcell : MemCell) (st : Store) : Store :=
  pyCatch
    (match chatCall env st with
     | .error s => .error s
     | .ok (text, st₁) =>
       match greedyDelim '[' ']' (pyStrip text) with
       | none => .ok st₁
       | some s =>
         match pyJsonLoads s with
         | .error _ => .error st₁
         | .ok items =>
           match pyIter items with
           | .error _ => .error st₁
           | .ok xs => appendForesights env memcell.event_id xs st₁)

/-- The `for op in ops` loop of `_extract_life_profile` (store.py:449),
threading the mutating `current` text: only `add`/`explicit_info`
operations with a truthy description apply, each rewriting `USER.md`
wholesale, skipped when the exact line already ends the document. -/
def applyProfileOps (env : Env) :
    String → List JValue → Store → Except Store Store
  | _, [], st => .ok st
  | current, op :: ops, st =>
    match op with
    | .jobj okvs =>
      if jEqStr (jGetD okvs "action" .jnull) "add" ∧
          jEqStr (jGetD okvs "type" .jnull) "explicit_info" then
        match jGetD okvs "data" (.jobj []) with
        | .jobj dkvs =>
          let descV := jGetD dkvs "description" (.jstr "")
          if jTruthy descV then
            let line := "- " ++ pyStr descV
            if ¬ pyEndsWith (pyStrip current) line then
              let header := "\n\n## 对话学习 (Conversation-derived)\n"
              let current₁ :=
                if ¬ pyInStr header current then pyRstrip current ++ header ++ "\n"
                else current
              let current₂ := current₁ ++ line ++ "\n"
              match fsWrite env st (fun s => { s with userMd := some current₂ }) with
              | .error s => .error s
              | .ok st' => applyProfileOps env current₂ ops st'
            else applyProfileOps env current ops st
          else applyProfileOps env current ops st
        | _ => .error st
      else applyProfileOps env current ops st
    | _ => .error st

/-- The `try` body of `_extract_life_profile` (store.py:437–461), after
the profile document has been read. -/
def lifeProfileTry (env : Env) (current : String) (st : Store) :
    Except Store Store :=
  match chatCall env st with
  | .error s => .error s
  | .ok (text, st₂) =>
    match greedyDelim '{' '}' (pyStrip text) with
    | none => .ok st₂
    | some s =>
      match pyJsonLoads s with
      | .error _ => .error st₂
      | .ok (.jobj kvs) =>
        match pyIter (jGetD kvs "operations" (.jarr [])) with
        | .error _ => .error st₂
        | .ok ops => applyProfileOps env current ops st₂
      | .ok _ => .error st₂

/-- `_extract_life_profile` (store.py:424): skipped when the formatted
conversation is blank; reads `USER.md` *outside* the try block (a read
failure escapes to the orchestrator), then one chat call and the
operation loop inside the catch. -/
def extract_life_profile (env : Env) (memcell : MemCell) (st : Store) :
    Except Store Store :=
  let conv := format_conversation_for_extractors memcell.original_data
  if pyStrip conv = "" then .ok st
  else
    match (match st.userMd with
           | some s => fsRead env st s
           | none => (.ok ("(空)", st) : Except Store (String × Store))) with
    | .error s => .error s
    | .ok (current, st₁) => .ok (pyCatch (lifeProfileTry env current st₁))

/-! ## The consolidation orchestrator -/

/-- The pending user message the caller may supply: an object with a
`content` attribute and an optional timestamp (already rendered to a
string when it was a datetime). -/
structure Pending where
  content : Option String := none
  timestamp : Option String := none
deriving DecidableEq, Repr

/-- The dict `consolidate` builds from a pending message
(store.py:501): a falsy timestamp falls back to `datetime.now()`. -/
def pendingToDict (env : Env) (p : Pending) : Message :=
  let tsStr :=
    match p.timestamp with
    | some t => if t = "" then pyIsoformat env.now else t
    | none => pyIsoformat env.now
  { role := some "user", content := some (p.content.getD ""),
    timestamp := some tsStr }

/-- The candidate-span selection of `consolidate` (store.py:476–487):
`none` models the early `return True` paths that touch nothing.  In
Python, `messages[lc:-keep]` with `keep = 0` is the empty slice
(`-0 == 0`), hence the dedicated branch. -/
def spanSelection (archiveAll : Bool) (memoryWindow : Nat)
    (sess : SessionState) : Option (List Message × Nat) :=
  if archiveAll then some (sess.messages, 0)
  else
    let keep := memoryWindow / 2
    if sess.messages.length ≤ keep then none
    else if sess.messages.length ≤ sess.last_consolidated then none
    else
      let old :=
        if keep = 0 then []
        else (sess.messages.take (sess.messages.length - keep)).drop
          sess.last_consolidated
      if old.isEmpty then none else some (old, keep)

/-- The boundary decision of `consolidate` (store.py:494–516): forced
when archiving, otherwise `_detect_boundary` on the history/new split
(pending message as the new tail when supplied, else the span's last
message). -/
def consolidateDecision (env : Env) (archiveAll : Bool)
    (pending : Option Pending) (oldMessages : List Message) (st : Store) :
    (Bool × Bool × String) × Store :=
  if archiveAll then ((true, false, "会话归档"), st)
  else
    let hn :=
      match pending with
      | some p => (oldMessages, [pendingToDict env p])
      | none =>
        let hist := oldMessages.dropLast
        let newM :=
          match oldMessages.getLast? with
          | some m => [m]
          | none => []
        if hist.isEmpty then ([], oldMessages) else (hist, newM)
    let r := detect_boundary env.provider hn.1 hn.2 st.providerCalls
    (r.1, { st with providerCalls := r.2 })

/-- The digest fold of `consolidate` (store.py:540–547): append the new
fact line, compact past the cap, skip when the summary is empty, is the
archive sentinel, or is already contained in the digest. -/
def digestFold (env : Env) (ts summary currentMemory : String) (st : Store) :
    Except Store Store :=
  if summary ≠ "" ∧ summary ≠ "会话归档" then
    let newFact := "- " ++ ts ++ ": " ++ summary
    let updated :=
      if currentMemory ≠ "" then pyRstrip currentMemory ++ "\n" ++ newFact ++ "\n"
      else newFact ++ "\n"
    if ¬ pyInStr newFact currentMemory then
      let updated₂ :=
        if env.memoryMdMaxChars < updated.data.length then
          compact_memory_text env.memoryMdMaxChars updated
        else updated
      write_long_term env updated₂ st
    else .ok st
  else .ok st

/-- The body of `consolidate`'s `try` block (store.py:493–551): boundary
decision (forced when archiving), MemCell build and append, cluster
assignment, the four extractors, the history append and the digest
fold; only its very last action advances the consolidation cursor. -/
def consolidateTry (env : Env) (archiveAll : Bool) (keep : Nat)
    (pending : Option Pending) (oldMessages : List Message) (st : Store) :
    Except Store Store :=
  let dst := consolidateDecision env archiveAll pending oldMessages st
  let decision := dst.1
  let st₀ := dst.2
  if ¬ decision.1 ∧ ¬ archiveAll then .ok st₀
  else
    let memcell :=
      create_memcell env.now (env.uuid st₀.uuidCount) oldMessages decision.2.2
    let st₁ := { st₀ with uuidCount := st₀.uuidCount + 1 }
    match append_memcell env memcell st₁ with
    | .error s => .error s
    | .ok st₂ =>
      match assign_memcell_to_cluster_io env memcell.event_id memcell.timestamp st₂ with
      | .error s => .error s
      | .ok (_, st₃) =>
        let st₄ := extract_episode env memcell st₃
        let st₅ := extract_eventlog env memcell st₄
        let st₆ := extract_foresight env memcell st₅
        match extract_life_profile env memcell st₆ with
        | .error s => .error s
        | .ok st₇ =>
          let ts := pyTake 16 memcell.timestamp
          match append_history env ("[" ++ ts ++ "] " ++ decision.2.2) st₇ with
          | .error s => .error s
          | .ok st₈ =>
            match read_long_term env st₈ with
            | .error s => .error s
            | .ok (currentMemory, st₉) =>
              match digestFold env ts decision.2.2 currentMemory st₉ with
              | .error s => .error s
              | .ok st₁₀ =>
                .ok { st₁₀ with session := { st₁₀.session with
                  last_consolidated :=
                    if archiveAll then 0
                    else st₁₀.session.messages.length - keep } }

/-- `consolidate` (store.py:465): the single entry point.  Returns the
success boolean together with the final workspace state; the `try`
body's exception is caught here and reported as `false`. -/
def consolidate (env : Env) (archiveAll : Bool) (memoryWindow : Nat)
    (pending : Option Pending) (st : Store) : Bool × Store :=
  match spanSelection archiveAll memoryWindow st.session with
  | none => (true, st)
  | some (oldMessages, keep) =>
    if oldMessages.length < 2 then
      (true, { st with session := { st.session with
        last_consolidated := if archiveAll then 0 else st.session.messages.length - keep } })
    else
      match consolidateTry env archiveAll keep pending oldMessages st with
      | .ok st' => (true, st')
      | .error st' => (false, st')

end Nanobot

/-! # Claim theorems -/

namespace Nanobot

/-! ## Concrete scenario used by witnesses and counterexamples -/

/-- A fixed injected clock. -/
def nowT : PyDateTime := { year := 2026, month := 3, day := 2, hour := 12 }

def msgA : Message :=
  { role := some "user", content := some "hello there",
    timestamp := some "2026-01-15T10:00:00" }

/-- One minute after `msgA`. -/
def msgB : Message :=
  { role := some "assistant", content := some "hi, how can I help?",
    timestamp := some "2026-01-15T10:01:00" }

/-- A stubbed provider returning fixed, well-formed JSON for the four
extraction prompts issued in order: episode, event log, foresight, life
profile. -/
def stubReply (i : Nat) : Except Unit String :=
  if i = 0 then .ok "\x7b\"title\": \"t\", \"content\": \"c\", \"summary\": \"s\"\x7d"
  else if i = 1 then .ok "\x7b\"event_log\": \x7b\"time\": \"2026-01-15T10:01\", \"atomic_fact\": []\x7d\x7d"
  else if i = 2 then .ok "[]"
  else .ok "\x7b\"operations\": []\x7d"

/-- Environment with the stubbed provider, no file failures. -/
def envT : Env :=
  { provider := stubReply, jsonRepairFn := fun _ => .error (),
    now := nowT, uuid := fun i => "uuid-" ++ toString i,
    fsFail := fun _ => false }

/-- A fresh workspace whose session holds the two messages. -/
def stT : Store := { session := { messages := [msgA, msgB] } }


/-- One unfolding step of the boundary retry loop. -/
lemma boundaryLoop_succ (provider : Nat → Except Unit String) (n calls : Nat) :
    boundaryLoop provider (n + 1) calls =
      (match boundaryAttemptResult (provider calls) with
       | some r => (r, calls + 1)
       | none => boundaryLoop provider n (calls + 1)) := rfl

lemma isEmpty_false_of_ne_nil {l : List Message} (h : l ≠ []) :
    l.isEmpty = false := by
  cases l with
  | nil => exact absurd rfl h
  | cons a t => rfl

/-- C10: `_detect_boundary` called with an empty new-message slice
returns `(end=false, wait=true, "")` immediately, for every history and
without invoking the provider (the call counter is unchanged). -/
theorem C10_detect_boundary_empty_new (provider : Nat → Except Unit String)
    (historyMsgs : List Message) (calls : Nat) :
    detect_boundary provider historyMsgs [] calls = ((false, true, ""), calls) :=
  rfl

/-- C1: with a non-empty new slice, whenever the estimated combined
token count reaches `HARD_TOKEN_LIMIT` or the combined message count
reaches `HARD_MESSAGE_LIMIT`, and at least two history messages exist,
`_detect_boundary` force-closes with the fixed limit-reached summary
and never invokes the provider (the call counter is unchanged, for any
provider). -/
theorem C1_forced_split (provider : Nat → Except Unit String)
    (historyMsgs newMsgs : List Message) (calls : Nat)
    (hnew : newMsgs ≠ [])
    (hlimit : HARD_TOKEN_LIMIT ≤ estimate_total_tokens (historyMsgs ++ newMsgs) ∨
      HARD_MESSAGE_LIMIT ≤ historyMsgs.length + newMsgs.length)
    (hhist : 2 ≤ historyMsgs.length) :
    detect_boundary provider historyMsgs newMsgs calls =
      ((true, false, FORCED_SPLIT_SUMMARY), calls) := by
  simp only [detect_boundary, isEmpty_false_of_ne_nil hnew,
    Bool.false_eq_true, if_false]
  exact if_pos ⟨hlimit, hhist⟩

/-- C1 witness: 2 history plus 48 new messages meet the message
ceiling; a provider stub that always raises is never consulted. -/
theorem C1_forced_split_witness :
    detect_boundary (fun _ => .error ()) (List.replicate 2 msgA)
      (List.replicate 48 msgB) 0 = ((true, false, FORCED_SPLIT_SUMMARY), 0) :=
  C1_forced_split (fun _ => .error ()) (List.replicate 2 msgA)
    (List.replicate 48 msgB) 0 (by decide) (Or.inr (by decide)) (by decide)

/-- C2: with non-empty history and new slices, when the deterministic
limit pre-check does not fire and every one of the three attempts fails
to produce a decision (provider raised, or the reply had no parseable
JSON object), `_detect_boundary` degrades to `(end=false, wait=true,
"")`; each failure is swallowed and all three provider calls are
issued. -/
theorem C2_unparseable_degrades (provider : Nat → Except Unit String)
    (historyMsgs newMsgs : List Message) (calls : Nat)
    (hhist : historyMsgs ≠ []) (hnew : newMsgs ≠ [])
    (hnolimit : ¬ ((HARD_TOKEN_LIMIT ≤ estimate_total_tokens (historyMsgs ++ newMsgs) ∨
      HARD_MESSAGE_LIMIT ≤ historyMsgs.length + newMsgs.length) ∧
      2 ≤ historyMsgs.length))
    (hfail : ∀ i, i < 3 → boundaryAttemptResult (provider (calls + i)) = none) :
    detect_boundary provider historyMsgs newMsgs calls =
      ((false, true, ""), calls + 3) := by
  have h0 := hfail 0 (by omega)
  have h1 := hfail 1 (by omega)
  have h2 := hfail 2 (by omega)
  rw [Nat.add_zero] at h0
  simp only [detect_boundary, isEmpty_false_of_ne_nil hnew,
    isEmpty_false_of_ne_nil hhist]
  rw [if_neg hnolimit]
  rw [boundaryLoop_succ, h0, boundaryLoop_succ, h1, boundaryLoop_succ, h2]
  rfl

/-- C2 witness: a provider stub answering brace-free garbage on all
three attempts; one history and one new message keep the limit
pre-check silent. -/
theorem C2_unparseable_degrades_witness :
    detect_boundary (fun _ => .ok "garbage") [msgA] [msgB] 0 =
      ((false, true, ""), 3) :=
  C2_unparseable_degrades (fun _ => .ok "garbage") [msgA] [msgB] 0
    (by decide) (by decide) (by decide) (fun _ _ => rfl)

/-- C7: `cluster_id_from_timestamp` is the parsed calendar date
formatted `YYYY-MM-DD` whenever the (Z-normalised) timestamp parses, so
two timestamps of the same calendar day always share one cluster key;
an unparseable timestamp maps to the injected clock's current date. -/
theorem C7_cluster_id_calendar_date (now : PyDateTime) :
    (∀ T dt, pyFromIso (pyReplace T "Z" "+00:00") = some dt →
      cluster_id_from_timestamp now T =
        padNum 4 dt.year ++ "-" ++ padNum 2 dt.month ++ "-" ++ padNum 2 dt.day) ∧
    (∀ T₁ T₂ dt₁ dt₂, pyFromIso (pyReplace T₁ "Z" "+00:00") = some dt₁ →
      pyFromIso (pyReplace T₂ "Z" "+00:00") = some dt₂ →
      dt₁.year = dt₂.year → dt₁.month = dt₂.month → dt₁.day = dt₂.day →
      cluster_id_from_timestamp now T₁ = cluster_id_from_timestamp now T₂) ∧
    (∀ T, pyFromIso (pyReplace T "Z" "+00:00") = none →
      cluster_id_from_timestamp now T = strftimeYmd now) := by
  refine ⟨fun T dt h => ?_, fun T₁ T₂ dt₁ dt₂ h₁ h₂ hy hm hd => ?_, fun T h => ?_⟩
  · simp [cluster_id_from_timestamp, h, strftimeYmd]
  · simp [cluster_id_from_timestamp, h₁, h₂, strftimeYmd, hy, hm, hd]
  · simp [cluster_id_from_timestamp, h]

/-- C7 witness: a UTC-suffixed timestamp buckets to its calendar day; a
non-timestamp buckets to the fixed clock's day. -/
theorem C7_cluster_id_calendar_date_witness :
    cluster_id_from_timestamp nowT "2026-01-15T10:00:00Z" = "2026-01-15" ∧
    cluster_id_from_timestamp nowT "not a timestamp" = strftimeYmd nowT :=
  ⟨((C7_cluster_id_calendar_date nowT).1 "2026-01-15T10:00:00Z"
      { year := 2026, month := 1, day := 15, hour := 10, tzSeconds := some 0 }
      (by rfl)).trans (by rfl),
   (C7_cluster_id_calendar_date nowT).2.2 "not a timestamp" (by rfl)⟩

/-! ## Dict lemmas for the cluster-state claims -/

lemma dictSet_map_fst {α : Type} (d : List (String × α)) (k : String) (v : α) :
    (dictSet d k v).map Prod.fst =
      if d.any (fun kv => kv.1 = k) then d.map Prod.fst
      else d.map Prod.fst ++ [k] := by
  unfold dictSet
  split
  · rw [List.map_map]
    apply List.map_congr_left
    intro kv _
    by_cases h : kv.1 = k
    · simp [h]
    · simp [h]
  · simp

lemma mem_keys_dictSet {α : Type} (d : List (String × α)) (k : String)
    (v : α) (x : String) :
    x ∈ (dictSet d k v).map Prod.fst ↔ x ∈ d.map Prod.fst ∨ x = k := by
  rw [dictSet_map_fst]
  split
  · rename_i h
    rw [List.any_eq_true] at h
    obtain ⟨kv, hmem, hk⟩ := h
    simp only [decide_eq_true_eq] at hk
    constructor
    · exact Or.inl
    · rintro (hx | rfl)
      · exact hx
      · exact List.mem_map.mpr ⟨kv, hmem, hk⟩
  · simp [List.mem_append]

lemma nodup_keys_dictSet {α : Type} (d : List (String × α)) (k : String)
    (v : α) (h : (d.map Prod.fst).Nodup) :
    ((dictSet d k v).map Prod.fst).Nodup := by
  rw [dictSet_map_fst]
  split
  · exact h
  · rename_i hany
    rw [List.nodup_append]
    refine ⟨h, List.nodup_singleton _, ?_⟩
    intro x hx hk
    rw [List.mem_singleton] at hk
    subst hk
    obtain ⟨kv, hmem, hfst⟩ := List.mem_map.mp hx
    rw [List.any_eq_true] at hany
    exact hany ⟨kv, hmem, by simp [hfst]⟩

lemma dictSet_mem_self {α : Type} (d : List (String × α)) (k : String) (v : α) :
    (k, v) ∈ dictSet d k v := by
  unfold dictSet
  split
  · rename_i h
    rw [List.any_eq_true] at h
    obtain ⟨kv, hmem, hk⟩ := h
    simp only [decide_eq_true_eq] at hk
    exact List.mem_map.mpr ⟨kv, hmem, by simp [hk]⟩
  · simp

lemma dictGetD_map_replace_self {α : Type} (t : List (String × α))
    (k : String) (v w : α)
    (h : (t.any fun kv => kv.1 = k) = true) :
    dictGetD (t.map (fun kv => if kv.1 = k then (k, v) else kv)) k w = v := by
  induction t with
  | nil => simp at h
  | cons a t ih =>
    by_cases ha : a.1 = k
    · simp [dictGetD, ha]
    · have h' : (t.any fun kv => kv.1 = k) = true := by
        rw [List.any_cons] at h
        simpa [ha] using h
      simpa [dictGetD, ha] using ih h'

lemma dictGetD_append_self {α : Type} (t : List (String × α))
    (k : String) (v w : α)
    (h : ¬ (t.any fun kv => kv.1 = k) = true) :
    dictGetD (t ++ [(k, v)]) k w = v := by
  induction t with
  | nil => simp [dictGetD]
  | cons a t ih =>
    rw [List.any_cons] at h
    simp only [Bool.or_eq_true, not_or] at h
    have ha : ¬ a.1 = k := by simpa using h.1
    simpa [dictGetD, ha] using ih (by simpa using h.2)

lemma dictGetD_dictSet_self {α : Type} (d : List (String × α)) (k : String)
    (v w : α) : dictGetD (dictSet d k v) k w = v := by
  unfold dictSet
  split
  · exact dictGetD_map_replace_self _ _ _ _ (by assumption)
  · exact dictGetD_append_self _ _ _ _ (by assumption)

lemma dictGetD_map_replace_ne {α : Type} (t : List (String × α))
    (k k' : String) (v w : α) (h : k' ≠ k) :
    dictGetD (t.map (fun kv => if kv.1 = k then (k, v) else kv)) k' w =
      dictGetD t k' w := by
  induction t with
  | nil => rfl
  | cons a t ih =>
    by_cases ha : a.1 = k
    · have hk : ¬ k = k' := fun he => h he.symm
      have ha' : ¬ a.1 = k' := by rw [ha]; exact hk
      simp [dictGetD, ha, hk, ha', ih]
    · by_cases ha' : a.1 = k'
      · simp [dictGetD, ha, ha', h]
      · simp [dictGetD, ha, ha', ih]

lemma dictGetD_append_ne {α : Type} (t : List (String × α))
    (k k' : String) (v w : α) (h : k' ≠ k) :
    dictGetD (t ++ [(k, v)]) k' w = dictGetD t k' w := by
  induction t with
  | nil =>
    have hk : ¬ k = k' := fun he => h he.symm
    simp [dictGetD, hk]
  | cons a t ih =>
    by_cases ha' : a.1 = k'
    · simp [dictGetD, ha']
    · simp [dictGetD, ha', ih]

lemma dictGetD_dictSet_ne {α : Type} (d : List (String × α)) (k k' : String)
    (v w : α) (h : k' ≠ k) :
    dictGetD (dictSet d k v) k' w = dictGetD d k' w := by
  unfold dictSet
  split
  · exact dictGetD_map_replace_ne _ _ _ _ _ h
  · exact dictGetD_append_ne _ _ _ _ _ h

/-- C9: assigning an event id to a cluster and then listing that
cluster's event ids on the resulting persisted state always includes
the event id. -/
theorem C9_assign_roundtrip (now : PyDateTime) (eventId timestamp : String)
    (state : ClusterState) :
    eventId ∈ get_cluster_event_ids
      (assign_memcell_to_cluster now eventId timestamp state).2
      (assign_memcell_to_cluster now eventId timestamp state).1 := by
  unfold assign_memcell_to_cluster get_cluster_event_ids
  apply List.mem_map.mpr
  refine ⟨(eventId, cluster_id_from_timestamp now timestamp), ?_, rfl⟩
  rw [List.mem_filter]
  exact ⟨dictSet_mem_self _ _ _, by simp⟩

/-! ## The cluster-state invariant (C4) -/

/-- Membership step of one assignment. -/
lemma assign_keys_mem (now : PyDateTime) (e t : String) (st : ClusterState)
    (x : String) :
    x ∈ (assign_memcell_to_cluster now e t st).2.eventid_to_cluster.map Prod.fst ↔
      x ∈ st.eventid_to_cluster.map Prod.fst ∨ x = e := by
  unfold assign_memcell_to_cluster
  exact mem_keys_dictSet _ _ _ _

/-- Count step of one assignment. -/
lemma assign_counts (now : PyDateTime) (e t : String) (st : ClusterState)
    (c : String) :
    dictGetD (assign_memcell_to_cluster now e t st).2.cluster_counts c 0 =
      if cluster_id_from_timestamp now t = c
      then dictGetD st.cluster_counts c 0 + 1
      else dictGetD st.cluster_counts c 0 := by
  unfold assign_memcell_to_cluster
  by_cases h : cluster_id_from_timestamp now t = c
  · rw [if_pos h, ← h, dictGetD_dictSet_self]
  · rw [if_neg h, dictGetD_dictSet_ne _ _ _ _ _ (fun he => h he.symm)]

lemma foldAssigns_nodup (now : PyDateTime) (calls : List (String × String)) :
    ∀ st : ClusterState, (st.eventid_to_cluster.map Prod.fst).Nodup →
    (((calls.foldl (fun st c => (assign_memcell_to_cluster now c.1 c.2 st).2)
      st).eventid_to_cluster.map Prod.fst)).Nodup := by
  induction calls with
  | nil => intro st h; simpa using h
  | cons c tl ih =>
    intro st h
    rw [List.foldl_cons]
    exact ih _ (nodup_keys_dictSet _ _ _ h)

lemma foldAssigns_mem (now : PyDateTime) (calls : List (String × String)) :
    ∀ (st : ClusterState) (x : String),
    (x ∈ ((calls.foldl (fun st c => (assign_memcell_to_cluster now c.1 c.2 st).2)
      st).eventid_to_cluster.map Prod.fst)) ↔
      x ∈ st.eventid_to_cluster.map Prod.fst ∨ x ∈ calls.map Prod.fst := by
  induction calls with
  | nil => intro st x; simp
  | cons c tl ih =>
    intro st x
    rw [List.foldl_cons, ih, assign_keys_mem]
    simp only [List.map_cons, List.mem_cons]
    tauto

lemma foldAssigns_counts (now : PyDateTime) (calls : List (String × String)) :
    ∀ (st : ClusterState) (c : String),
    dictGetD ((calls.foldl (fun st c => (assign_memcell_to_cluster now c.1 c.2 st).2)
      st).cluster_counts) c 0 =
      dictGetD st.cluster_counts c 0 +
        (calls.filter (fun p => cluster_id_from_timestamp now p.2 = c)).length := by
  induction calls with
  | nil => intro st c; simp
  | cons p tl ih =>
    intro st c
    rw [List.foldl_cons, ih, assign_counts]
    by_cases h : cluster_id_from_timestamp now p.2 = c
    · simp only [if_pos h, List.filter_cons]
      rw [if_pos (by simp [h])]
      simp only [List.length_cons]
      omega
    · simp only [if_neg h, List.filter_cons]
      rw [if_neg (by simp [h])]

/-- C4 (amended): after any sequence of assignments persisted through
one state file from fresh, every assigned event id appears exactly once
as a key of event→cluster (the keys are duplicate-free, and an id is a
key exactly when it was assigned), while `cluster_counts[c]` equals the
number of assignment *calls* whose timestamp resolved to `c` — not the
number of distinct event ids mapped to `c`, which can be smaller when
an id is re-assigned. -/
theorem C4_cluster_state_invariant (now : PyDateTime)
    (calls : List (String × String)) :
    ((runAssigns now calls).eventid_to_cluster.map Prod.fst).Nodup ∧
    (∀ e, e ∈ (runAssigns now calls).eventid_to_cluster.map Prod.fst ↔
      e ∈ calls.map Prod.fst) ∧
    (∀ c, dictGetD (runAssigns now calls).cluster_counts c 0 =
      (calls.filter (fun p => cluster_id_from_timestamp now p.2 = c)).length) := by
  refine ⟨foldAssigns_nodup now calls emptyClusterState (by simp [emptyClusterState]),
    fun e => ?_, fun c => ?_⟩
  · rw [runAssigns, foldAssigns_mem]
    simp [emptyClusterState]
  · rw [runAssigns, foldAssigns_counts]
    simp [emptyClusterState, dictGetD]

/-- C4 counterexample: assigning the same event id twice on the same
day leaves one event→cluster entry but a count of 2, so the count does
not equal the number of event ids mapping to the cluster. -/
theorem C4_counterexample :
    ¬ (dictGetD (runAssigns nowT
        [("e1", "2026-01-15T10:00:00"), ("e1", "2026-01-15T10:00:00")]).cluster_counts
        "2026-01-15" 0 =
      (get_cluster_event_ids (runAssigns nowT
        [("e1", "2026-01-15T10:00:00"), ("e1", "2026-01-15T10:00:00")])
        "2026-01-15").length) := by decide

/-! ## Digest compaction (C8) -/

/-- The leading non-bullet header lines of the compaction split. -/
def compactHeader (content : String) : List String :=
  (splitHeaderFacts (pySplitlines (pyStrip content))).1

/-- The fact lines of the compaction split. -/
def compactFacts (content : String) : List String :=
  (splitHeaderFacts (pySplitlines (pyStrip content))).2

/-- The fact lines `_compact_memory_text` keeps: the most recent
`maxChars / 80` of them (all of them when there are fewer, or when the
quota is zero — Python `facts[-0:]` is the whole list). -/
def compactKept (maxChars : Nat) (content : String) : List String :=
  if maxChars / 80 < (compactFacts content).length
  then pySliceLast (maxChars / 80) (compactFacts content)
  else compactFacts content

/-- The reassembled digest before the final truncation: header lines, a
blank line, then the kept fact lines. -/
def compactReassembled (maxChars : Nat) (content : String) : String :=
  pyJoin "\n" (compactHeader content ++ [""] ++ compactKept maxChars content) ++ "\n"

lemma compact_memory_text_over_cap (maxChars : Nat) (content : String)
    (h : maxChars < content.data.length) :
    compact_memory_text maxChars content =
      pyTake maxChars (compactReassembled maxChars content) := by
  unfold compact_memory_text compactReassembled compactKept compactFacts compactHeader
  rw [if_neg (by omega)]

/-- C8 (amended): on a digest exceeding the configured cap,
`_compact_memory_text` returns a text of at most the cap many
characters which is a prefix of the reassembled text "header lines,
blank line, most recent fact lines" — the kept facts are a suffix of
the fact lines, exactly `cap / 80` many when more exist and the quota
is positive — and whenever that reassembled text itself fits within
the cap it is returned whole, so the header lines and the retained
facts are then fully preserved.  (The truncation can cut into header
and fact lines; full preservation as claimed fails, see the
counterexample.) -/
theorem C8_compaction (maxChars : Nat) (content : String)
    (h : maxChars < content.data.length) :
    (compact_memory_text maxChars content).data.length ≤ maxChars ∧
    (compact_memory_text maxChars content).data <+:
      (compactReassembled maxChars content).data ∧
    compactKept maxChars content <:+ compactFacts content ∧
    (maxChars / 80 < (compactFacts content).length → 0 < maxChars / 80 →
      (compactKept maxChars content).length = maxChars / 80) ∧
    ((compactReassembled maxChars content).data.length ≤ maxChars →
      compact_memory_text maxChars content = compactReassembled maxChars content) := by
  rw [compact_memory_text_over_cap maxChars content h]
  refine ⟨?_, ?_, ?_, ?_, ?_⟩
  · simp only [pyTake]
    rw [List.length_take]
    exact Nat.min_le_left _ _
  · simp only [pyTake]
    exact List.take_prefix _ _
  · unfold compactKept
    split
    · unfold pySliceLast
      split
      · exact List.suffix_refl _
      · exact List.drop_suffix _ _
    · exact List.suffix_refl _
  · intro hlt hpos
    unfold compactKept
    rw [if_pos hlt]
    unfold pySliceLast
    rw [if_neg (by omega)]
    rw [List.length_drop]
    omega
  · intro hle
    simp only [pyTake]
    rw [List.take_of_length_le hle]

/-- C8 witness: a 20-character digest against a configured cap of 10. -/
theorem C8_compaction_witness :
    (compact_memory_text 10 "HEADERLINE12\n- a\n- b").data.length ≤ 10 :=
  (C8_compaction 10 "HEADERLINE12\n- a\n- b" (by decide)).1

/-- C8 counterexample: with the cap configured to 10, a digest whose
header line alone exceeds the cap is truncated inside the header — the
header line is not preserved and the most recent fact line is not
retained, against the claim's wording. -/
theorem C8_counterexample :
    10 < ("HEADERLINE12\n- a\n- b" : String).data.length ∧
    compact_memory_text 10 "HEADERLINE12\n- a\n- b" = "HEADERLINE" ∧
    ¬ ("HEADERLINE12" ∈ pySplitlines (compact_memory_text 10 "HEADERLINE12\n- a\n- b")) ∧
    ¬ ("- b" ∈ pySplitlines (compact_memory_text 10 "HEADERLINE12\n- a\n- b")) := by
  decide

/-! ## Short-span no-op (C6) -/

/-- C6: whenever the selected not-yet-consolidated candidate span has
fewer than two messages, `consolidate` returns success and moves the
consolidation cursor to its post-consolidation position (a strict
advance in normal mode; the archive-mode reset to 0), with no MemCell
and no other artifact — the resulting store differs from the input only
in the cursor, so no file and no counter changed. -/
theorem C6_short_span_noop (env : Env) (archiveAll : Bool)
    (memoryWindow : Nat) (pending : Option Pending) (st : Store)
    (old : List Message) (keep : Nat)
    (hsel : spanSelection archiveAll memoryWindow st.session = some (old, keep))
    (hlen : old.length < 2) :
    consolidate env archiveAll memoryWindow pending st =
      (true, { st with session := { st.session with
        last_consolidated :=
          if archiveAll then 0 else st.session.messages.length - keep } }) ∧
    (archiveAll = false →
      st.session.last_consolidated < st.session.messages.length - keep) := by
  constructor
  · simp only [consolidate, hsel]
    rw [if_pos hlen]
  · intro ha
    subst ha
    simp only [spanSelection, Bool.false_eq_true, if_false] at hsel
    split_ifs at hsel with h1 h2 h3 h4 h5
    all_goals try exact absurd rfl h4
    · rw [Option.some_inj, Prod.mk.injEq] at hsel
      obtain ⟨hold, hkeep⟩ := hsel
      subst hkeep
      have hpos : 0 < ((st.session.messages.take
          (st.session.messages.length - memoryWindow / 2)).drop
          st.session.last_consolidated).length := by
        rcases Nat.eq_zero_or_pos ((st.session.messages.take
            (st.session.messages.length - memoryWindow / 2)).drop
            st.session.last_consolidated).length with hz | hp
        · exact absurd (List.isEmpty_iff_length_eq_zero.mpr hz) (by simp_all)
        · exact hp
      rw [List.length_drop, List.length_take] at hpos
      omega

/-- C6 witness: three messages with window 4 (half-window 2) select a
single-message span; consolidate succeeds and advances the cursor from
0 to 1, leaving everything else untouched. -/
theorem C6_short_span_noop_witness :
    consolidate envT false 4 none
      { session := { messages := [msgA, msgB, msgA] } } =
      (true,
        { session :=
            { messages := [msgA, msgB, msgA], last_consolidated := 1 } }) :=
  (C6_short_span_noop envT false 4 none
      { session := { messages := [msgA, msgB, msgA] } } [msgA] 2 rfl
      (by decide)).1

/-! ## Session preservation of the pipeline steps (towards C5)

Every step of the `try` body leaves the session collaborator untouched
— in particular the consolidation cursor — whether it succeeds or
raises; only the very last action of `consolidateTry` writes the
cursor. -/

/-- The session of either outcome of an effectful step. -/
def exSession : Except Store Store → SessionState
  | .ok s => s.session
  | .error s => s.session

/-- The session of either outcome of a value-returning effectful step. -/
def exSessionP : Except Store (String × Store) → SessionState
  | .ok p => p.2.session
  | .error s => s.session

lemma pyCatch_session (x : Except Store Store) :
    (pyCatch x).session = exSession x := by
  cases x <;> rfl

lemma fsWrite_session (env : Env) (st : Store) (act : Store → Store)
    (hact : ∀ s, (act s).session = s.session) :
    exSession (fsWrite env st act) = st.session := by
  unfold fsWrite
  split <;> simp [exSession, hact]

lemma chatCall_session (env : Env) (st : Store) :
    exSessionP (chatCall env st) = st.session := by
  unfold chatCall
  cases env.provider st.providerCalls <;> rfl

lemma fsRead_session (env : Env) (st : Store) (v : String) :
    exSessionP (fsRead env st v) = st.session := by
  unfold fsRead
  split <;> rfl

lemma read_long_term_session (env : Env) (st : Store) :
    exSessionP (read_long_term env st) = st.session := by
  unfold read_long_term
  cases st.memoryMd
  · rfl
  · exact fsRead_session env st _

lemma write_long_term_session (env : Env) (content : String) (st : Store) :
    exSession (write_long_term env content st) = st.session :=
  fsWrite_session env st _ (fun _ => rfl)

lemma append_history_session (env : Env) (entry : String) (st : Store) :
    exSession (append_history env entry st) = st.session := by
  simp only [append_history]
  exact fsWrite_session env st _ (fun _ => rfl)

lemma append_memcell_session (env : Env) (mc : MemCell) (st : Store) :
    exSession (append_memcell env mc st) = st.session :=
  fsWrite_session env st _ (fun _ => rfl)

lemma assign_io_session (env : Env) (e t : String) (st : Store) :
    exSessionP (assign_memcell_to_cluster_io env e t st) = st.session := by
  unfold assign_memcell_to_cluster_io save_cluster_state_io fsWrite
    load_cluster_state_io
  cases st.clusterFile with
  | none =>
    dsimp only
    by_cases hf : env.fsFail st.fsOps = true <;> simp [hf, exSessionP]
  | some cs =>
    dsimp only
    by_cases hf1 : env.fsFail st.fsOps = true <;>
      by_cases hf2 : env.fsFail (st.fsOps + 1) = true <;>
        simp [hf1, hf2, exSessionP]

lemma appendFactLines_session (env : Env) (evtTime : String) :
    ∀ (fs : List String) (st : Store),
    exSession (appendFactLines env evtTime fs st) = st.session := by
  intro fs
  induction fs with
  | nil => intro st; rfl
  | cons f fs ih =>
    intro st
    unfold appendFactLines
    cases h : append_history env ("[" ++ evtTime ++ "] " ++ f) st with
    | error s =>
      have hs := append_history_session env ("[" ++ evtTime ++ "] " ++ f) st
      rw [h] at hs
      exact hs
    | ok st' =>
      have hs := append_history_session env ("[" ++ evtTime ++ "] " ++ f) st
      rw [h] at hs
      rw [ih st']
      exact hs

lemma appendForesights_session (env : Env) (eventId : String) :
    ∀ (xs : List JValue) (st : Store),
    exSession (appendForesights env eventId xs st) = st.session := by
  intro xs
  induction xs with
  | nil => intro st; rfl
  | cons x xs ih =>
    intro st
    unfold appendForesights
    cases x with
    | jobj kvs =>
      dsimp only
      cases h : fsWrite env st (fun s => { s with foresights := s.foresights ++
          [JValue.jobj (dictSet kvs "event_id" (.jstr eventId))] }) with
      | error s =>
        have hs := fsWrite_session env st (fun s => { s with foresights := s.foresights ++
          [JValue.jobj (dictSet kvs "event_id" (.jstr eventId))] }) (fun _ => rfl)
        rw [h] at hs
        exact hs
      | ok st' =>
        have hs := fsWrite_session env st (fun s => { s with foresights := s.foresights ++
          [JValue.jobj (dictSet kvs "event_id" (.jstr eventId))] }) (fun _ => rfl)
        rw [h] at hs
        rw [ih st']
        exact hs
    | jnull => exact ih st
    | jbool b => exact ih st
    | jnum raw => exact ih st
    | jstr s => exact ih st
    | jarr items => exact ih st

lemma applyProfileOps_session (env : Env) :
    ∀ (ops : List JValue) (current : String) (st : Store),
    exSession (applyProfileOps env current ops st) = st.session := by
  intro ops
  induction ops with
  | nil => intro current st; rfl
  | cons op ops ih =>
    intro current st
    unfold applyProfileOps
    cases op with
    | jobj okvs =>
      dsimp only
      split
      · split
        · split
          · split
            · generalize hcur : (if ¬ pyInStr _ current then _ else current) ++ _ ++ _ = current₂
              cases h : fsWrite env st (fun s => { s with userMd := some current₂ }) with
              | error s =>
                have hs := fsWrite_session env st
                  (fun s => { s with userMd := some current₂ }) (fun _ => rfl)
                rw [h] at hs
                exact hs
              | ok st' =>
                have hs := fsWrite_session env st
                  (fun s => { s with userMd := some current₂ }) (fun _ => rfl)
                rw [h] at hs
                rw [ih _ st']
                exact hs
            · exact ih _ st
          · exact ih _ st
        · rfl
      · exact ih _ st
    | jnull => rfl
    | jbool b => rfl
    | jnum raw => rfl
    | jstr s => rfl
    | jarr items => rfl

lemma extract_episode_session (env : Env) (mc : MemCell) (st : Store) :
    (extract_episode env mc st).session = st.session := by
  unfold extract_episode
  rw [pyCatch_session]
  cases hchat : chatCall env st with
  | error s =>
    have h := chatCall_session env st
    rw [hchat] at h
    exact h
  | ok p =>
    obtain ⟨text, st₁⟩ := p
    have h1 : st₁.session = st.session := by
      have h := chatCall_session env st
      rw [hchat] at h
      exact h
    dsimp only
    split
    · exact h1
    · split
      · exact h1
      · split
        · exact h1
        · rw [fsWrite_session]
          · exact h1
          · intro s
            rfl
      · exact h1

lemma extract_eventlog_session (env : Env) (mc : MemCell) (st : Store) :
    (extract_eventlog env mc st).session = st.session := by
  unfold extract_eventlog
  rw [pyCatch_session]
  cases hchat : chatCall env st with
  | error s =>
    have h := chatCall_session env st
    rw [hchat] at h
    exact h
  | ok p =>
    obtain ⟨text, st₁⟩ := p
    have h1 : st₁.session = st.session := by
      have h := chatCall_session env st
      rw [hchat] at h
      exact h
    dsimp only
    split
    · exact h1
    · split
      · exact h1
      · split
        · split
          · exact h1
          · split
            · exact h1
            · rw [appendFactLines_session]
              exact h1
        · rw [appendFactLines_session]
          exact h1
        · exact h1
      · exact h1

lemma extract_foresight_session (env : Env) (mc : MemCell) (st : Store) :
    (extract_foresight env mc st).session = st.session := by
  unfold extract_foresight
  rw [pyCatch_session]
  cases hchat : chatCall env st with
  | error s =>
    have h := chatCall_session env st
    rw [hchat] at h
    exact h
  | ok p =>
    obtain ⟨text, st₁⟩ := p
    have h1 : st₁.session = st.session := by
      have h := chatCall_session env st
      rw [hchat] at h
      exact h
    dsimp only
    split
    · exact h1
    · split
      · exact h1
      · split
        · exact h1
        · rw [appendForesights_session]
          exact h1

lemma lifeProfileTry_session (env : Env) (current : String) (st : Store) :
    exSession (lifeProfileTry env current st) = st.session := by
  unfold lifeProfileTry
  cases hchat : chatCall env st with
  | error s =>
    have h := chatCall_session env st
    rw [hchat] at h
    exact h
  | ok p =>
    obtain ⟨text, st₂⟩ := p
    have h1 : st₂.session = st.session := by
      have h := chatCall_session env st
      rw [hchat] at h
      exact h
    dsimp only
    split
    · exact h1
    · split
      · exact h1
      · split
        · exact h1
        · rw [applyProfileOps_session]
          exact h1
      · exact h1

lemma extract_life_profile_session (env : Env) (mc : MemCell) (st : Store) :
    exSession (extract_life_profile env mc st) = st.session := by
  simp only [extract_life_profile]
  by_cases hconv : pyStrip (format_conversation_for_extractors mc.original_data) = ""
  · rw [if_pos hconv]
    rfl
  · rw [if_neg hconv]
    have hread : exSessionP (match st.userMd with
        | some s => fsRead env st s
        | none => Except.ok ("(空)", st)) = st.session := by
      cases st.userMd
      · rfl
      · exact fsRead_session env st _
    cases hr : (match st.userMd with
        | some s => fsRead env st s
        | none => Except.ok ("(空)", st)) with
    | error s =>
      rw [hr] at hread
      exact hread
    | ok p =>
      obtain ⟨current, st₁⟩ := p
      rw [hr] at hread
      show (pyCatch (lifeProfileTry env current st₁)).session = st.session
      rw [pyCatch_session, lifeProfileTry_session]
      exact hread

lemma consolidateDecision_session (env : Env) (archiveAll : Bool)
    (pending : Option Pending) (old : List Message) (st : Store) :
    (consolidateDecision env archiveAll pending old st).2.session = st.session := by
  unfold consolidateDecision
  split <;> rfl

lemma digestFold_session (env : Env) (ts summary cur : String) (st : Store) :
    exSession (digestFold env ts summary cur st) = st.session := by
  simp only [digestFold]
  split
  · split
    · exact write_long_term_session env _ st
    · rfl
  · rfl

/-- Any exception escaping the `try` body leaves the session — in
particular the consolidation cursor — exactly as it was. -/
lemma consolidateTry_error_session (env : Env) (archiveAll : Bool)
    (keep : Nat) (pending : Option Pending) (old : List Message)
    (st st' : Store)
    (h : consolidateTry env archiveAll keep pending old st = .error st') :
    st'.session = st.session := by
  have hdec := consolidateDecision_session env archiveAll pending old st
  simp only [consolidateTry] at h
  split at h
  · exact Except.noConfusion h
  · split at h
    next s heq =>
      injection h with h'
      subst h'
      have hs := congrArg exSession heq
      rw [append_memcell_session] at hs
      simp only [exSession] at hs
      rw [← hs]
      exact hdec
    next st₂ heq₂ =>
      have h2 : st₂.session = st.session := by
        have hs := congrArg exSession heq₂
        rw [append_memcell_session] at hs
        simp only [exSession] at hs
        rw [← hs]
        exact hdec
      split at h
      next s heq =>
        injection h with h'
        subst h'
        have hs := congrArg exSessionP heq
        rw [assign_io_session] at hs
        simp only [exSessionP] at hs
        rw [← hs]
        exact h2
      next cid st₃ heq₃ =>
        have h3 : st₃.session = st.session := by
          have hs := congrArg exSessionP heq₃
          rw [assign_io_session] at hs
          simp only [exSessionP] at hs
          rw [← hs]
          exact h2
        split at h
        next s heq =>
          injection h with h'
          subst h'
          have hs := congrArg exSession heq
          rw [extract_life_profile_session] at hs
          simp only [exSession] at hs
          rw [← hs, extract_foresight_session, extract_eventlog_session,
            extract_episode_session]
          exact h3
        next st₇ heq₇ =>
          have h7 : st₇.session = st.session := by
            have hs := congrArg exSession heq₇
            rw [extract_life_profile_session] at hs
            simp only [exSession] at hs
            rw [← hs, extract_foresight_session, extract_eventlog_session,
              extract_episode_session]
            exact h3
          split at h
          next s heq =>
            injection h with h'
            subst h'
            have hs := congrArg exSession heq
            rw [append_history_session] at hs
            simp only [exSession] at hs
            rw [← hs]
            exact h7
          next st₈ heq₈ =>
            have h8 : st₈.session = st.session := by
              have hs := congrArg exSession heq₈
              rw [append_history_session] at hs
              simp only [exSession] at hs
              rw [← hs]
              exact h7
            split at h
            next s heq =>
              injection h with h'
              subst h'
              have hs := congrArg exSessionP heq
              rw [read_long_term_session] at hs
              simp only [exSessionP] at hs
              rw [← hs]
              exact h8
            next cm st₉ heq₉ =>
              have h9 : st₉.session = st.session := by
                have hs := congrArg exSessionP heq₉
                rw [read_long_term_session] at hs
                simp only [exSessionP] at hs
                rw [← hs]
                exact h8
              split at h
              next s heq =>
                injection h with h'
                subst h'
                have hs := congrArg exSession heq
                rw [digestFold_session] at hs
                simp only [exSession] at hs
                rw [← hs]
                exact h9
              next st₁₀ heq₁₀ =>
                exact Except.noConfusion h

/-- C5: whenever an exception escapes the consolidation sequence (the
`try` body: boundary decision, MemCell build and append, cluster
assignment, the four extractors, the history append, the digest fold),
`consolidate` catches it at its entry point and returns `false` with
the state at the point of failure, and `session.last_consolidated` is
unchanged, so a retry reconsiders the same span. -/
theorem C5_failure_keeps_cursor (env : Env) (archiveAll : Bool)
    (memoryWindow : Nat) (pending : Option Pending) (st : Store)
    (old : List Message) (keep : Nat) (st' : Store)
    (hsel : spanSelection archiveAll memoryWindow st.session = some (old, keep))
    (hlen : 2 ≤ old.length)
    (herr : consolidateTry env archiveAll keep pending old st = .error st') :
    consolidate env archiveAll memoryWindow pending st = (false, st') ∧
    st'.session.last_consolidated = st.session.last_consolidated := by
  constructor
  · simp only [consolidate, hsel]
    rw [if_neg (by omega), herr]
  · rw [consolidateTry_error_session env archiveAll keep pending old st st' herr]

/-- Environment whose very first file operation (the MemCell append)
raises `OSError`. -/
def envC5 : Env :=
  { provider := stubReply, jsonRepairFn := fun _ => .error (),
    now := nowT, uuid := fun i => "uuid-" ++ toString i,
    fsFail := fun i => i = 0 }

/-- The state at the point of failure: one uuid drawn, one file
operation attempted, nothing persisted, cursor untouched. -/
def stC5err : Store :=
  { session := { messages := [msgA, msgB] }, uuidCount := 1, fsOps := 1 }

/-- C5 witness: archiving two messages with a failing MemCell append
returns `false` and leaves the cursor unchanged. -/
theorem C5_failure_keeps_cursor_witness :
    consolidate envC5 true 50 none stT = (false, stC5err) ∧
    stC5err.session.last_consolidated = stT.session.last_consolidated :=
  C5_failure_keeps_cursor envC5 true 50 none stT [msgA, msgB] 0 stC5err rfl
    (by decide) rfl

/-! ## The archive end-to-end scenario (C3) -/

/-- C3 counterexample: in the claimed scenario — a session of exactly
two messages one minute apart, a stubbed provider answering fixed,
well-formed JSON for all four extraction prompts, `archive_all=true` —
exactly one MemCell is appended, but the long-term digest does not
change at all: the fold at store.py:541 skips any summary equal to the
archive sentinel "会话归档", which is exactly the summary archive mode
forces, so the digest does not grow by one fact line as claimed. -/
theorem C3_counterexample :
    (consolidate envT true 50 none stT).2.memcells.length = 1 ∧
    (consolidate envT true 50 none stT).2.memoryMd = stT.memoryMd ∧
    ¬ ((pySplitlines (((consolidate envT true 50 none stT).2.memoryMd).getD "")).length =
       (pySplitlines ((stT.memoryMd).getD "")).length + 1) := by
  refine ⟨rfl, rfl, by decide⟩

/-- C3 (amended): in that scenario, `consolidate` succeeds having
appended exactly one MemCell, performed exactly one cluster assignment
(the event id mapped to its calendar-day cluster, count 1), issued the
four extraction calls, and appended exactly one history line — the
consolidation summary — while the long-term digest stays unchanged,
the fold being skipped for the forced archive summary. -/
theorem C3_archive_scenario :
    (consolidate envT true 50 none stT).1 = true ∧
    (consolidate envT true 50 none stT).2.memcells.length = 1 ∧
    (consolidate envT true 50 none stT).2.clusterFile = some
      { eventid_to_cluster := [("uuid-0", "2026-01-15")],
        cluster_counts := [("2026-01-15", 1)],
        cluster_last_ts := [("2026-01-15", "2026-01-15T10:01:00")] } ∧
    (consolidate envT true 50 none stT).2.historyEntries =
      [("260101", "[2026-01-15T10:01] 会话归档")] ∧
    (consolidate envT true 50 none stT).2.providerCalls = 4 ∧
    (consolidate envT true 50 none stT).2.memoryMd = stT.memoryMd :=
  ⟨rfl, rfl, rfl, rfl, rfl, rfl⟩

end Nanobot
